import Mathlib

/-!
Verification development for the flow-sandbox repository (a Cloudflare
Workers + Hono demo of account-creation request handling).

The embedding models, over `String` / `List Char`:
  * the worker's request handlers (`src/worker/index.ts`): `parseRequestBody`,
    `handleLogin`, `handleFormSubmission` and its HTML page builders,
  * the platform / Hono body-parsing semantics the handlers invoke
    (`c.req.parseBody()`, `Request.formData()`, URL-encoded parsing),
  * the client's form submission encoding (`src/react-app/App.tsx`), at the
    byte level, and
  * the tolerant multipart fallback parser, which the specification documents
    (spec section 4.2) but which is missing from the source snapshot; it is
    modelled from the spec's words and marked as such below.

All definitions are executable; theorems about concrete requests evaluate by
kernel reduction.
-/

namespace FlowSandbox

/-! ## Generic list machinery (executable, structural) -/

/-- `startsWithL pat l` is true when `pat` is an initial run of `l`. -/
def startsWithL {α : Type} [DecidableEq α] : List α → List α → Bool
  | [], _ => true
  | _ :: _, [] => false
  | a :: as, b :: bs => a = b && startsWithL as bs

/-- `occursIn pat l` is true when `pat` occurs contiguously somewhere in `l`
(the `String.includes` / substring test). -/
def occursIn {α : Type} [DecidableEq α] : List α → List α → Bool
  | pat, [] => startsWithL pat []
  | pat, c :: cs => startsWithL pat (c :: cs) || occursIn pat cs

/-- First-occurrence splitter: `findSplit sep l = some (a, rest)` when
`l = a ++ sep ++ rest` and this is the leftmost occurrence of `sep`. -/
def findSplit {α : Type} [DecidableEq α] (sep : List α) : List α → Option (List α × List α)
  | [] => if sep.isEmpty then some ([], []) else none
  | c :: cs =>
    if startsWithL sep (c :: cs) then some ([], (c :: cs).drop sep.length)
    else
      match findSplit sep cs with
      | some (a, rest) => some (c :: a, rest)
      | none => none

/-- Worker loop for `splitOnSep`: `skip` counts separator characters still to
be consumed after a match, `cur` accumulates the current chunk reversed. -/
def splitAux {α : Type} [DecidableEq α] (sep : List α) : Nat → List α → List α → List (List α)
  | _, cur, [] => [cur.reverse]
  | Nat.succ k, cur, _ :: cs => splitAux sep k cur cs
  | 0, cur, c :: cs =>
    if startsWithL sep (c :: cs) then
      cur.reverse :: splitAux sep (sep.length - 1) [] cs
    else splitAux sep 0 (c :: cur) cs

/-- Split a list on every (non-overlapping, leftmost-first) occurrence of
`sep`, the semantics of JavaScript `String.prototype.split` for a non-empty
separator. -/
def splitOnSep {α : Type} [DecidableEq α] (sep : List α) (l : List α) : List (List α) :=
  if sep.isEmpty then [l] else splitAux sep 0 [] l

/-- Whitespace per JavaScript `\s` restricted to ASCII (enough for every
string this development manipulates). -/
def wsB (c : Char) : Bool :=
  c = ' ' || c = '\t' || c = '\n' || c = '\r'

/-- Trim leading whitespace. -/
def trimLeftL (l : List Char) : List Char := l.dropWhile wsB

/-- Trim trailing whitespace. -/
def trimRightL (l : List Char) : List Char := ((l.reverse.dropWhile wsB)).reverse

/-- Trim both ends, the model of JavaScript `String.prototype.trim`. -/
def trimBothL (l : List Char) : List Char := trimRightL (trimLeftL l)

/-- Model of JavaScript `.trim()` on `String`. -/
def jsTrim (s : String) : String := ⟨trimBothL s.data⟩

/-- Remove one final copy of `suf` from `l` when present. -/
def stripOneSuffix {α : Type} [DecidableEq α] (suf l : List α) : List α :=
  if startsWithL suf.reverse l.reverse then l.take (l.length - suf.length) else l

/-- `replaceAllC c r l` replaces every occurrence of the character `c` by the
run `r`, the semantics of `String.prototype.replaceAll` for a one-character
pattern. -/
def replaceAllC (c : Char) (r : List Char) : List Char → List Char
  | [] => []
  | x :: xs => (if x = c then r else [x]) ++ replaceAllC c r xs

/-- Count occurrences of a character. -/
def countCh (c : Char) : List Char → Nat
  | [] => 0
  | x :: xs => (if x = c then 1 else 0) + countCh c xs

/-- Insert-or-update for association lists, the semantics of a JavaScript
object assignment `obj[k] = v`: the first binding of `k` is updated in place,
otherwise the binding is appended. -/
def upsert : List (String × String) → String → String → List (String × String)
  | [], k, v => [(k, v)]
  | (k1, v1) :: t, k, v => if k1 = k then (k, v) :: t else (k1, v1) :: upsert t k v

/-- First-match lookup (JavaScript property read on an object whose keys are
unique). -/
def lookupStr : List (String × String) → String → Option String
  | [], _ => none
  | (k1, v1) :: t, k => if k1 = k then some v1 else lookupStr t k

/-- `String(formData.f ?? "")` — read a field, defaulting to the empty
string. -/
def getFieldStr (m : List (String × String)) (k : String) : String :=
  (lookupStr m k).getD ""

/-- Collapse a parsed pair list into the JavaScript object Hono's
`convertFormDataToBodyData` builds: unique keys in first-appearance order,
later duplicate keys overwrite the stored value. -/
def toBodyData (pairs : List (String × String)) : List (String × String) :=
  pairs.foldl (fun m kv => upsert m kv.1 kv.2) []

/-- Object spread `{ ...base, ...winner }`-style merge: every binding of
`winner` is upserted into `base`, so its values win. -/
def mergeOverride (winner base : List (String × String)) : List (String × String) :=
  winner.foldl (fun m kv => upsert m kv.1 kv.2) base

/-- Insertion sort on strings (JavaScript `Array.prototype.sort` on the key
array of an object: lexicographic). -/
def insertSorted (x : String) : List String → List String
  | [] => [x]
  | y :: t => if decide (x ≤ y) then x :: y :: t else y :: insertSorted x t

/-- Sort a list of strings lexicographically. -/
def sortStr : List String → List String
  | [] => []
  | x :: t => insertSorted x (sortStr t)

/-- ASCII lower-casing of a string, the model of
`String.prototype.toLowerCase` on the ASCII header values this code
manipulates. -/
def toLowerStr (s : String) : String := ⟨s.data.map Char.toLower⟩

/-- Substring test on strings (`String.prototype.includes`). -/
def containsStr (pat s : String) : Bool := occursIn pat.data s.data

/-! ## URL-encoded bodies (character level)

Model of the WHATWG `application/x-www-form-urlencoded` parser that
`Request.formData()` applies, which Hono's `parseBody` exposes to the worker.
Percent-decoding maps `%XX` to the character of code `XX`; the bodies the
worker's claims exercise are ASCII, where this agrees with the byte-level
UTF-8 decoder (the byte-exact round-trip is treated separately, over bytes,
below). -/

/-- Hex digit test. -/
def isHexDigitB (c : Char) : Bool :=
  (('0' ≤ c) && (c ≤ '9')) || (('a' ≤ c) && (c ≤ 'f')) || (('A' ≤ c) && (c ≤ 'F'))

/-- Value of a hex digit. -/
def hexVal (c : Char) : Nat :=
  if ('0' ≤ c) && (c ≤ '9') then c.toNat - 48
  else if ('a' ≤ c) && (c ≤ 'f') then c.toNat - 87
  else c.toNat - 55

/-- Percent-decoding; a `%` not followed by two hex digits stays literal. -/
def percentDecode : List Char → List Char
  | [] => []
  | '%' :: h1 :: h2 :: rest2 =>
    if isHexDigitB h1 && isHexDigitB h2 then
      Char.ofNat (16 * hexVal h1 + hexVal h2) :: percentDecode rest2
    else '%' :: percentDecode (h1 :: h2 :: rest2)
  | c :: rest => c :: percentDecode rest

/-- `+` means space in URL-encoded payloads. -/
def plusToSpace (l : List Char) : List Char :=
  l.map fun c => if c = '+' then ' ' else c

/-- Decode one URL-encoded token. -/
def decodeComponent (l : List Char) : String :=
  ⟨percentDecode (plusToSpace l)⟩

/-- Split one `k=v` chunk; a chunk without `=` is a bare key with empty
value. -/
def decodePair (chunk : List Char) : String × String :=
  match findSplit ['='] chunk with
  | some (k, v) => (decodeComponent k, decodeComponent v)
  | none => (decodeComponent chunk, "")

/-- WHATWG URL-encoded body parser: split on `&`, skip empty chunks, split
each chunk at its first `=`, decode both sides. -/
def parseUrlencoded (raw : String) : List (String × String) :=
  (splitOnSep ['&'] raw.data).foldl
    (fun acc chunk => if chunk.isEmpty then acc else acc ++ [decodePair chunk]) []

/-! ## The `debug=1` body token

`handleFormSubmission` decides body-requested debug mode with
`/(?:^|&)debug=1(?:&|$)/.test(rawText)` (worker lines 93 and 184). -/

/-- Does `debug=1` start here, delimited on the right by `&` or the end? -/
def debugTokenAt (l : List Char) : Bool :=
  startsWithL ("debug=1").data l &&
    (match l.drop 7 with
     | [] => true
     | d :: _ => d = '&')

/-- Scan for the token; `atBound` records whether the current position is the
start of the string or just after a `&`. -/
def hasDebugTokenAux : Bool → List Char → Bool
  | atBound, [] => atBound && debugTokenAt []
  | atBound, c :: cs => (atBound && debugTokenAt (c :: cs)) || hasDebugTokenAux (c = '&') cs

/-- Model of the worker's `debugFromBody` regular-expression test. -/
def hasDebugToken (s : String) : Bool := hasDebugTokenAux true s.data

/-! ## Credential redaction for the debug page

`rawText.replace(/email=[^&]*/i, "email=[redacted]")` replaces the first
case-insensitive occurrence of `email=` together with its maximal `&`-free
run (worker lines 114-116 and 198-200). -/

/-- Case-insensitive `startsWithL` against an already-lower-cased pattern. -/
def startsWithCI (patLower : List Char) (l : List Char) : Bool :=
  startsWithL patLower (l.map Char.toLower)

/-- Replace the first case-insensitive occurrence of `key` plus its `&`-free
run by `repl`; no occurrence leaves the string unchanged (JavaScript
`String.prototype.replace` with a non-global `i` regex `key[^&]*`). -/
def replaceKeyRunFirst (keyLower repl : List Char) : List Char → List Char
  | [] => []
  | c :: cs =>
    if startsWithCI keyLower (c :: cs) then
      repl ++ ((c :: cs).drop keyLower.length).dropWhile (fun d => !(d = '&'))
    else c :: replaceKeyRunFirst keyLower repl cs

/-- The worker's redaction of a raw body before it enters the debug page:
the email replacement runs first, the password replacement on its result. -/
def redactRawText (s : String) : String :=
  ⟨replaceKeyRunFirst ("password=").data ("password=[redacted]").data
      (replaceKeyRunFirst ("email=").data ("email=[redacted]").data s.data)⟩

/-! ## HTML escaping

`escapeHtml` (worker lines 82-83) chains four `replaceAll` passes, ampersand
first. -/

/-- The four replacement passes of the worker's `escapeHtml`, in source
order. -/
def escapeHtmlL (l : List Char) : List Char :=
  replaceAllC '"' ("&quot;").data
    (replaceAllC '>' ("&gt;").data
      (replaceAllC '<' ("&lt;").data
        (replaceAllC '&' ("&amp;").data l)))

/-- The worker's `escapeHtml`. -/
def escapeHtml (s : String) : String := ⟨escapeHtmlL s.data⟩

/-- The per-character effect of the four chained passes. -/
def entOf (c : Char) : List Char :=
  if c = '&' then ("&amp;").data
  else if c = '<' then ("&lt;").data
  else if c = '>' then ("&gt;").data
  else if c = '"' then ("&quot;").data
  else [c]

/-- Does one of the four entity tails introduced by `escapeHtml` start
here? -/
def entTail (l : List Char) : Bool :=
  startsWithL ("amp;").data l || startsWithL ("lt;").data l ||
    startsWithL ("gt;").data l || startsWithL ("quot;").data l

/-- Scanner for the claim "no `<`, `>` or `"`, and `&` only as the head of an
entity the escaper introduced": checks every position of the list. -/
def wEsc : List Char → Bool
  | [] => true
  | '&' :: rest => entTail rest && wEsc rest
  | c :: rest => !(c = '<' || c = '>' || c = '"') && wEsc rest

/-! ## Multipart bodies

`mpEncode` is the canonical `multipart/form-data` framing of a field list
with a given boundary (CRLF line breaks, one `Content-Disposition` header per
part, terminal `--boundary--`), the shape a standards-compliant sender
produces and the shape used in the spec's concrete scenario. -/

/-- The delimiter line start `--boundary`. -/
def mpMark (b : String) : List Char := '-' :: '-' :: b.data

/-- The content of one encoded part as it sits between two delimiters. -/
def mpChunk (name value : String) : List Char :=
  ("\r\nContent-Disposition: form-data; name=\"").data ++ name.data ++
    ("\"\r\n\r\n").data ++ value.data ++ ("\r\n").data

/-- Canonical multipart encoding of a field list. -/
def mpEncode (b : String) (parts : List (String × String)) : String :=
  ⟨parts.foldr (fun nv acc => mpMark b ++ mpChunk nv.1 nv.2 ++ acc)
      (mpMark b ++ ['-', '-'])⟩

/-- Parse one segment produced by splitting a multipart body on its delimiter:
skip padding and the terminal `--`; otherwise split headers from content at
the first blank line, read the field name from the `name="..."` pattern, and
drop the content's one trailing CRLF. (Spec section 4.2, step 4.) -/
def parseSegment (seg : List Char) : Option (String × String) :=
  if (trimBothL seg).isEmpty || trimBothL seg = ['-', '-'] then none
  else
    match findSplit (['\r', '\n', '\r', '\n']) seg with
    | none => none
    | some (hdr, body) =>
      match findSplit ("name=\"").data hdr with
      | none => none
      | some (_, rest) =>
        some (⟨rest.takeWhile (fun c => !(c = '"'))⟩, ⟨stripOneSuffix ['\r', '\n'] body⟩)

/-- Collect the fields of all segments into an object, later fields
overwriting earlier same-named ones. -/
def fieldsOfSegments (segs : List (List Char)) : List (String × String) :=
  segs.foldl
    (fun m seg =>
      match parseSegment seg with
      | none => m
      | some nv => upsert m nv.1 nv.2) []

/-- A standards-compliant multipart parser that is handed the body's actual
boundary: split the body on `--boundary` and read each part's name and
content.
Yields `none` (a parse failure) when the delimiter never occurs. This is both
the comparison point named by the spec ("what a correct multipart parser
using the real boundary would yield") and the model of the platform's
`Request.formData()` on a `multipart/form-data` request. -/
def compliantMultipartParse (b : String) (raw : String) : Option (List (String × String)) :=
  if occursIn (mpMark b) raw.data then
    some (fieldsOfSegments (splitOnSep (mpMark b) raw.data))
  else none

/-! ## JSON values and responses -/

/-- A parsed JSON value, the result of `await c.req.json()`. -/
inductive JsonVal where
  | null
  | bool (b : Bool)
  | num (n : Int)
  | str (s : String)
  | arr (elems : List JsonVal)
  | obj (fields : List (String × JsonVal))

/-- First-match lookup in a JSON object. -/
def lookupJ : List (String × JsonVal) → String → Option JsonVal
  | [], _ => none
  | (k1, v1) :: t, k => if k1 = k then some v1 else lookupJ t k

/-- JavaScript truthiness of a JSON value. -/
def jsTruthy : JsonVal → Bool
  | .null => false
  | .bool b => b
  | .num n => !(n = 0)
  | .str s => !(s = "")
  | .arr _ => true
  | .obj _ => true

/-- Truthiness of a possibly-absent property. -/
def truthyO : Option JsonVal → Bool
  | none => false
  | some v => jsTruthy v

/-- Error kinds the handlers can catch (spec section 7). The attached
message is the one the worker interpolates; texts produced by the platform
rather than by the worker's own `throw` are abstracted to a fixed string. -/
inductive AppErr where
  | unsupportedContentType (ct : String)
  | malformedJson
  | typeError
  | bodyParseFailure
deriving DecidableEq

/-- `error.message` as the worker reports it. -/
def errMessage : AppErr → String
  | .unsupportedContentType ct => "Unsupported content type: " ++ ct
  | .malformedJson => "Malformed JSON body"
  | .typeError => "TypeError"
  | .bodyParseFailure => "Failed to parse body as FormData"

/-- The JSON object an API route returns; `none` fields are the keys
`JSON.stringify` drops because they are `undefined`. -/
structure ApiResp where
  message : String
  email : Option String
  pathSegment : Option String
  error : Option String
deriving DecidableEq

/-- An HTTP response body: structured JSON (API routes) or an HTML page
(form routes). -/
inductive RespBody where
  | json (r : ApiResp)
  | html (page : String)
deriving DecidableEq

/-- An HTTP response. -/
structure Resp where
  status : Nat
  body : RespBody
deriving DecidableEq

/-- 400 "Email and password are required". -/
def apiRequired : Resp := ⟨400, .json ⟨"Email and password are required", none, none, none⟩⟩

/-- 400 "Email and password cannot be empty". -/
def apiEmpty : Resp := ⟨400, .json ⟨"Email and password cannot be empty", none, none, none⟩⟩

/-- 400 "Invalid request" with the caught error's message. -/
def apiInvalid (msg : String) : Resp := ⟨400, .json ⟨"Invalid request", none, none, some msg⟩⟩

/-- 200 "Login successful" echoing the email and the optional path
segment. -/
def apiSuccess (email : String) (seg : Option String) : Resp :=
  ⟨200, .json ⟨"Login successful", some email, seg, none⟩⟩

/-! ## Hono `parseBody` / platform `formData()` semantics

`c.req.parseBody()` (library code the worker calls) inspects the raw
Content-Type header: it runs `Request.formData()` for `multipart/form-data`
and `application/x-www-form-urlencoded` prefixes and yields an empty object
for every other (or absent) declared type. `formData()` on a multipart
request needs a `boundary` parameter and fails when the body has no
delimiter for it. -/

/-- Extract the `boundary` parameter of a Content-Type header value. -/
def getBoundary (ct : String) : Option String :=
  match findSplit ("boundary=").data ct.data with
  | none => none
  | some (_, rest) => some ⟨rest.takeWhile (fun c => !(c = ';'))⟩

/-- Model of Hono's `parseBody` on this worker's requests. -/
def parseBodyHono (cth : Option String) (raw : String) : Except AppErr (List (String × String)) :=
  match cth with
  | none => .ok []
  | some ct =>
    if startsWithL ("multipart/form-data").data ct.data then
      match getBoundary ct with
      | none => .error .bodyParseFailure
      | some bd =>
        match compliantMultipartParse bd raw with
        | none => .error .bodyParseFailure
        | some pairs => .ok (toBodyData pairs)
    else if startsWithL ("application/x-www-form-urlencoded").data ct.data then
      .ok (toBodyData (parseUrlencoded raw))
    else .ok []

/-! ## The API routes (`parseRequestBody`, `handleLogin`) -/

/-- What `parseRequestBody` hands back: the raw JSON value (the code's
unchecked `await c.req.json()`) or the two stringified form fields. -/

inductive BodyVal where
  | jsonV (j : JsonVal)
  | formV (email password : String)

/-- The worker's `parseRequestBody` (lines 12-33): dispatch on the
lower-cased declared content type; `jsonParsed` is the result of
`JSON.parse` on the raw body, `none` when it throws. -/
def parseRequestBody (cth : Option String) (raw : String) (jsonParsed : Option JsonVal) :
    Except AppErr BodyVal :=
  let ctl := toLowerStr (cth.getD "")
  if containsStr "application/json" ctl then
    match jsonParsed with
    | none => .error .malformedJson
    | some j => .ok (.jsonV j)
  else if containsStr "application/x-www-form-urlencoded" ctl ||
      containsStr "multipart/form-data" ctl || decide (ctl = "") then
    match parseBodyHono cth raw with
    | .error e => .error e
    | .ok fields => .ok (.formV (getFieldStr fields "email") (getFieldStr fields "password"))
  else .error (.unsupportedContentType ctl)

/-- Property read `body.k` with JavaScript semantics: reading a property of
`null` throws, reading a missing property of anything else yields
`undefined`. -/
def jsGetField : JsonVal → String → Except AppErr (Option JsonVal)
  | .null, _ => .error .typeError
  | .obj kvs, k => .ok (lookupJ kvs k)
  | _, _ => .ok none

/-- The validation part of `handleLogin` on a JSON body (lines 40-50),
including the `.trim()` calls that throw on truthy non-string fields and the
short-circuit order of the source. -/
def handleLoginJson (j : JsonVal) (seg : Option String) : Resp :=
  match jsGetField j "email" with
  | .error e => apiInvalid (errMessage e)
  | .ok eo =>
    match jsGetField j "password" with
    | .error e => apiInvalid (errMessage e)
    | .ok po =>
      if !truthyO eo || !truthyO po then apiRequired
      else
        match eo with
        | some (.str es) =>
          if jsTrim es = "" then apiEmpty
          else
            match po with
            | some (.str ps) =>
              if jsTrim ps = "" then apiEmpty else apiSuccess es seg
            | _ => apiInvalid (errMessage .typeError)
        | _ => apiInvalid (errMessage .typeError)

/-- The worker's `handleLogin` (lines 36-54): parse the body, validate,
catch every thrown error into a 400 JSON response. -/
def handleLogin (cth : Option String) (raw : String) (jsonParsed : Option JsonVal)
    (seg : Option String) : Resp :=
  match parseRequestBody cth raw jsonParsed with
  | .error e => apiInvalid (errMessage e)
  | .ok (.jsonV j) => handleLoginJson j seg
  | .ok (.formV em pw) =>
    if decide (em = "") || decide (pw = "") then apiRequired
    else if decide (jsTrim em = "") || decide (jsTrim pw = "") then apiEmpty
    else apiSuccess em seg

/-! ## The form routes (`handleFormSubmission`) -/

/-- One request to a form route: the captured (already URI-decoded) path
segment (empty when the route had none), the `debug` query parameter, the
headers the handler reads, and the raw body text. -/
structure FormReq where
  pathSegment : String
  method : String
  url : String
  queryDebug : Option String
  contentType : Option String
  contentLength : Option String
  secFetchMode : Option String
  secFetchDest : Option String
  secFetchSite : Option String
  origin : Option String
  referer : Option String
  userAgent : Option String
  rawBody : String
deriving DecidableEq

/-- `pathSegment ? "/" + pathSegment : ""` (worker line 78). -/
def basePathOf (seg : String) : String := if seg = "" then "" else "/" ++ seg

/-- The eight header values the debug page dumps, absent ones as `""`. -/
structure HeadersInfo where
  hContentType : String
  hContentLength : String
  hSecFetchMode : String
  hSecFetchDest : String
  hSecFetchSite : String
  hOrigin : String
  hReferer : String
  hUserAgent : String
deriving DecidableEq

/-- Header dump of a request (worker lines 103-112 and 187-196). -/
def headersOf (r : FormReq) : HeadersInfo :=
  ⟨r.contentType.getD "", r.contentLength.getD "", r.secFetchMode.getD "",
    r.secFetchDest.getD "", r.secFetchSite.getD "", r.origin.getD "",
    r.referer.getD "", r.userAgent.getD ""⟩

/-- The `rawBody` block of the debug info (worker lines 123-130). -/
structure RawBodyInfo where
  bodyLength : Nat
  preview : String
  containsEmailKey : Bool
  containsPasswordKey : Bool
  containsFpDataKey : Bool
  containsDebugKey : Bool
deriving DecidableEq

/-- Build the `rawBody` block: length, the first 400 characters of the
redacted body, and key-presence flags. -/
def rawBodyInfoOf (rawText : String) : RawBodyInfo :=
  ⟨rawText.data.length, ⟨(redactRawText rawText).data.take 400⟩,
    containsStr "email=" rawText, containsStr "password=" rawText,
    containsStr "fp-data=" rawText, containsStr "debug=1" rawText⟩

/-- The `parsed` block of the debug info (worker lines 131-140): lengths and
presence only. -/
structure ParsedInfo where
  keys : List String
  emailPresent : Bool
  emailLength : Nat
  passwordPresent : Bool
  passwordLength : Nat
  fpDataPresent : Bool
  fpDataLength : Nat
  debugFieldPresent : Bool
deriving DecidableEq

/-- Build the `parsed` block from the parsed body object. -/
def parsedInfoOf (fields : List (String × String)) : ParsedInfo :=
  ⟨sortStr (fields.map Prod.fst),
    decide (0 < (getFieldStr fields "email").data.length),
    (getFieldStr fields "email").data.length,
    decide (0 < (getFieldStr fields "password").data.length),
    (getFieldStr fields "password").data.length,
    decide (0 < (getFieldStr fields "fp-data").data.length),
    (getFieldStr fields "fp-data").data.length,
    decide (getFieldStr fields "debug" = "1")⟩

/-- The debug payload of the successful-parse branch (worker lines
118-141). -/
structure DebugInfo where
  pathSegment : String
  method : String
  url : String
  headers : HeadersInfo
  rawBody : RawBodyInfo
  parsed : ParsedInfo
deriving DecidableEq

/-- The debug payload of the parse-error branch (worker lines 202-216). -/
structure DebugErrInfo where
  pathSegment : String
  method : String
  url : String
  headers : HeadersInfo
  errText : String
  rawBody : RawBodyInfo
deriving DecidableEq

/-- Assemble the successful-parse debug payload. -/
def mkDebugInfo (r : FormReq) (fields : List (String × String)) : DebugInfo :=
  ⟨r.pathSegment, r.method, r.url, headersOf r, rawBodyInfoOf r.rawBody, parsedInfoOf fields⟩

/-- Assemble the parse-error debug payload. -/
def mkDebugErrInfo (r : FormReq) (e : AppErr) : DebugErrInfo :=
  ⟨r.pathSegment, r.method, r.url, headersOf r, errMessage e, rawBodyInfoOf r.rawBody⟩

/-! ## `JSON.stringify(debugInfo, null, 2)` for the two fixed shapes -/

/-- Lower-case hex digit. -/
def hexDigitOf (n : Nat) : Char :=
  if n < 10 then Char.ofNat (48 + n) else Char.ofNat (87 + n)

/-- JSON string escaping of one character. -/
def jsonEscapeChar (c : Char) : List Char :=
  if c = '"' then ['\\', '"']
  else if c = '\\' then ['\\', '\\']
  else if c = '\n' then ['\\', 'n']
  else if c = '\r' then ['\\', 'r']
  else if c = '\t' then ['\\', 't']
  else if c = '\x08' then ['\\', 'b']
  else if c = '\x0c' then ['\\', 'f']
  else if c.toNat < 32 then ['\\', 'u', '0', '0', hexDigitOf (c.toNat / 16), hexDigitOf (c.toNat % 16)]
  else [c]

/-- A JSON string literal. -/
def jsonQuote (s : String) : String :=
  ⟨'"' :: s.data.foldr (fun c acc => jsonEscapeChar c ++ acc) ['"']⟩

/-- Render a boolean. -/
def boolStr (b : Bool) : String := if b then "true" else "false"

/-- Join with a separator. -/
def joinSep (sep : String) : List String → String
  | [] => ""
  | [x] => x
  | x :: y :: t => x ++ sep ++ joinSep sep (y :: t)

/-- The `keys` array at depth 2 (elements indented six spaces). -/
def renderKeysArr (keys : List String) : String :=
  if keys.isEmpty then "[]"
  else "[\n" ++ joinSep ",\n" (keys.map fun k => "      " ++ jsonQuote k) ++ "\n    ]"

/-- The `headers` object at depth 1. -/
def renderHeaders (h : HeadersInfo) : String :=
  "\x7b\n    \"content-type\": " ++ jsonQuote h.hContentType ++
    ",\n    \"content-length\": " ++ jsonQuote h.hContentLength ++
    ",\n    \"sec-fetch-mode\": " ++ jsonQuote h.hSecFetchMode ++
    ",\n    \"sec-fetch-dest\": " ++ jsonQuote h.hSecFetchDest ++
    ",\n    \"sec-fetch-site\": " ++ jsonQuote h.hSecFetchSite ++
    ",\n    \"origin\": " ++ jsonQuote h.hOrigin ++
    ",\n    \"referer\": " ++ jsonQuote h.hReferer ++
    ",\n    \"user-agent\": " ++ jsonQuote h.hUserAgent ++ "\n  \x7d"

/-- The `rawBody` object at depth 1. -/
def renderRawBody (rb : RawBodyInfo) : String :=
  "\x7b\n    \"length\": " ++ toString rb.bodyLength ++
    ",\n    \"preview\": " ++ jsonQuote rb.preview ++
    ",\n    \"containsEmailKey\": " ++ boolStr rb.containsEmailKey ++
    ",\n    \"containsPasswordKey\": " ++ boolStr rb.containsPasswordKey ++
    ",\n    \"containsFpDataKey\": " ++ boolStr rb.containsFpDataKey ++
    ",\n    \"containsDebugKey\": " ++ boolStr rb.containsDebugKey ++ "\n  \x7d"

/-- The `parsed` object at depth 1. -/
def renderParsed (p : ParsedInfo) : String :=
  "\x7b\n    \"keys\": " ++ renderKeysArr p.keys ++
    ",\n    \"emailPresent\": " ++ boolStr p.emailPresent ++
    ",\n    \"emailLength\": " ++ toString p.emailLength ++
    ",\n    \"passwordPresent\": " ++ boolStr p.passwordPresent ++
    ",\n    \"passwordLength\": " ++ toString p.passwordLength ++
    ",\n    \"fpDataPresent\": " ++ boolStr p.fpDataPresent ++
    ",\n    \"fpDataLength\": " ++ toString p.fpDataLength ++
    ",\n    \"debugFieldPresent\": " ++ boolStr p.debugFieldPresent ++ "\n  \x7d"

/-- `JSON.stringify(debugInfo, null, 2)` for the successful-parse shape. -/
def renderDebugInfo (i : DebugInfo) : String :=
  "\x7b\n  \"pathSegment\": " ++ jsonQuote i.pathSegment ++
    ",\n  \"method\": " ++ jsonQuote i.method ++
    ",\n  \"url\": " ++ jsonQuote i.url ++
    ",\n  \"headers\": " ++ renderHeaders i.headers ++
    ",\n  \"rawBody\": " ++ renderRawBody i.rawBody ++
    ",\n  \"parsed\": " ++ renderParsed i.parsed ++ "\n\x7d"

/-- `JSON.stringify(debugInfo, null, 2)` for the parse-error shape. -/
def renderDebugErrInfo (i : DebugErrInfo) : String :=
  "\x7b\n  \"pathSegment\": " ++ jsonQuote i.pathSegment ++
    ",\n  \"method\": " ++ jsonQuote i.method ++
    ",\n  \"url\": " ++ jsonQuote i.url ++
    ",\n  \"headers\": " ++ renderHeaders i.headers ++
    ",\n  \"error\": " ++ jsonQuote i.errText ++
    ",\n  \"rawBody\": " ++ renderRawBody i.rawBody ++ "\n\x7d"

/-! ## The HTML pages of the form routes (verbatim source templates) -/

/-- The back-links line every form-route page carries; note the unescaped
interpolation of the path-segment-derived URLs. -/
def backLinks (basePath : String) : String :=
  "  <p><a href=\"" ++ basePath ++ "/form-test.html\">← Back (iframe)</a> | <a href=\"" ++
    basePath ++ "/form-test-navigate.html\">← Back (navigate)</a></p>\n"

/-- The success page (worker lines 171-181). -/
def successPage (basePath email : String) : String :=
  "<!DOCTYPE html>\n<html>\n<head><title>Success</title></head>\n<body>\n  <h1>Account Created Successfully!</h1>\n  <p>Email: " ++
    escapeHtml email ++ "</p>\n" ++ backLinks basePath ++ "</body>\n</html>"

/-- The missing-fields error page (worker lines 156-169). -/
def missingFieldsPage (basePath : String) : String :=
  "<!DOCTYPE html>\n<html>\n<head><title>Error</title></head>\n<body>\n  <h1>Error</h1>\n  <p>Email and password are required</p>\n" ++
    backLinks basePath ++ "</body>\n</html>"

/-- The caught-error page (worker lines 232-243). -/
def errorPage (basePath msg : String) : String :=
  "<!DOCTYPE html>\n<html>\n<head><title>Error</title></head>\n<body>\n  <h1>Error</h1>\n  <p>" ++
    escapeHtml msg ++ "</p>\n" ++ backLinks basePath ++ "</body>\n</html>"

/-- The debug page of the successful-parse branch (worker lines 143-153). -/
def debugPage (basePath : String) (info : DebugInfo) : String :=
  "<!DOCTYPE html>\n<html>\n<head><title>Debug</title></head>\n<body>\n  <h1>Debug: /__forms/create-account</h1>\n" ++
    backLinks basePath ++ "  <pre>" ++ escapeHtml (renderDebugInfo info) ++
    "</pre>\n</body>\n</html>"

/-- The debug page of the parse-error branch (worker lines 218-229). -/
def debugErrorPage (basePath : String) (info : DebugErrInfo) : String :=
  "<!DOCTYPE html>\n<html>\n<head><title>Debug</title></head>\n<body>\n  <h1>Debug: /__forms/create-account (parse error)</h1>\n" ++
    backLinks basePath ++ "  <pre>" ++ escapeHtml (renderDebugErrInfo info) ++
    "</pre>\n</body>\n</html>"

/-- The worker's `handleFormSubmission` (lines 68-245), parametrised by the
body-parsing function so that the source's parse (`parseBody`) and the
spec's tolerant parse can share the surrounding control flow: read the raw
body, decide debug mode from the query string or the body token, parse, and
answer with the debug page, the missing-fields page, the success page, or
the caught-error pages. -/
def handleFormSubmissionWith
    (parse : Option String → String → Except AppErr (List (String × String)))
    (r : FormReq) : Resp :=
  let basePath := basePathOf r.pathSegment
  let debug := decide (r.queryDebug = some "1") || hasDebugToken r.rawBody
  match parse r.contentType r.rawBody with
  | .ok fields =>
    if debug then ⟨200, .html (debugPage basePath (mkDebugInfo r fields))⟩
    else if decide (getFieldStr fields "email" = "") ||
        decide (getFieldStr fields "password" = "") then
      ⟨400, .html (missingFieldsPage basePath)⟩
    else ⟨200, .html (successPage basePath (getFieldStr fields "email"))⟩
  | .error e =>
    if debug then ⟨400, .html (debugErrorPage basePath (mkDebugErrInfo r e))⟩
    else ⟨400, .html (errorPage basePath (errMessage e))⟩

/-- The form-route handler exactly as the source snapshot has it: structural
parsing only. -/
def handleFormSubmission : FormReq → Resp := handleFormSubmissionWith parseBodyHono

/-! ## The tolerant multipart fallback (spec section 4.2)

Modelled from the spec: the tolerant multipart-recovery fallback documented
in spec sections 2 and 4.2 is not present in the source snapshot of
`handleFormSubmission` (which only calls `parseBody`); the definitions below
follow the spec's algorithm verbatim: heuristic framing detection, boundary
sniffing from the first line, splitting on `--boundary`, per-segment field
extraction, and merge with fallback values winning. -/

/-- Modelled from the spec (4.2 step 1): body starts with `--` and mentions
`Content-Disposition: form-data;`. -/
def mpFramed (raw : String) : Bool :=
  startsWithL ['-', '-'] raw.data &&
    occursIn ("Content-Disposition: form-data;").data raw.data

/-- Modelled from the spec (4.2 step 2): the body's first line up to the
first newline, with trailing whitespace stripped. -/
def sniffFirstLine (raw : String) : List Char :=
  trimRightL (raw.data.takeWhile fun c => !(c = '\n'))

/-- Modelled from the spec (4.2 step 2): if the stripped first line starts
with `--` and is longer than two characters, the remainder is the
boundary. -/
def sniffBoundary (raw : String) : Option String :=
  if startsWithL ['-', '-'] (sniffFirstLine raw) &&
      decide (2 < (sniffFirstLine raw).length) then
    some ⟨(sniffFirstLine raw).drop 2⟩
  else none

/-- Modelled from the spec (4.2 steps 3-4): split the body on the sniffed
`--boundary` and extract each segment's field. -/
def recoverFields (raw : String) : List (String × String) :=
  match sniffBoundary raw with
  | none => []
  | some b => fieldsOfSegments (splitOnSep (mpMark b) raw.data)

/-- Modelled from the spec (4.2 step 5 and section 2): structural parse
first; when the framing heuristic fires, recovered fields override the
structural result (and replace it entirely when the structural parse
failed). -/
def tolerantParseBody (cth : Option String) (raw : String) :
    Except AppErr (List (String × String)) :=
  match parseBodyHono cth raw with
  | .ok fields =>
    if mpFramed raw then .ok (mergeOverride (recoverFields raw) fields) else .ok fields
  | .error e =>
    if mpFramed raw then .ok (recoverFields raw) else .error e

/-- The form-route handler as the spec describes it: the source's control
flow around the tolerant parse. -/
def handleFormSubmissionTolerant : FormReq → Resp :=
  handleFormSubmissionWith tolerantParseBody

/-- The HTML text of a response, when it is an HTML response. -/
def respHtmlText (r : Resp) : Option String :=
  match r.body with
  | .html s => some s
  | .json _ => none

/-! ## Byte-level URL-encoded round trip (client encoding, server decoding)

The client's "Form submission" path (`App.tsx`, `submitForm`) posts a real
HTML form with `enctype="application/x-www-form-urlencoded"`; the browser
serialises each field with the WHATWG URL-encoded serialiser over the
value's bytes, and the server side (`Request.formData()` behind
`parseBody`) reverses it. The round trip is modelled byte-exactly over
`Fin 256`; string values correspond to byte lists through UTF-8. -/

/-- A byte. -/
abbrev Byte := Fin 256

/-- Byte literal. -/
def byteOf (n : Nat) : Byte := ⟨n % 256, Nat.mod_lt _ (by omega)⟩

/-- The characters the WHATWG URL-encoded serialiser leaves as-is:
`0-9A-Za-z` and `*-._`. -/
def isUnreservedB (b : Byte) : Bool :=
  (48 ≤ b.val && b.val ≤ 57) || (65 ≤ b.val && b.val ≤ 90) ||
    (97 ≤ b.val && b.val ≤ 122) ||
    b.val = 42 || b.val = 45 || b.val = 46 || b.val = 95

/-- Upper-case hex digit as a byte (for values below 16). -/
def hexDigitByte (n : Nat) : Byte :=
  if n < 10 then byteOf (48 + n) else byteOf (55 + n)

/-- Serialise one byte: space becomes `+`, unreserved bytes stay, everything
else becomes `%XX`. -/
def encByte (b : Byte) : List Byte :=
  if b.val = 32 then [byteOf 43]
  else if isUnreservedB b then [b]
  else [byteOf 37, hexDigitByte (b.val / 16), hexDigitByte (b.val % 16)]

/-- Serialise a field value. -/
def serializeComponent (v : List Byte) : List Byte :=
  v.foldr (fun b acc => encByte b ++ acc) []

/-- The bytes of an ASCII string literal. -/
def strBytes (s : String) : List Byte := s.data.map fun c => byteOf c.toNat

/-- The body the browser sends for the client's two-field form:
`email=<enc e>&password=<enc p>`. -/
def clientFormBody (e p : List Byte) : List Byte :=
  strBytes "email=" ++ serializeComponent e ++
    byteOf 38 :: (strBytes "password=" ++ serializeComponent p)

/-- Hex-digit test on bytes. -/
def isHexB (b : Byte) : Bool :=
  (48 ≤ b.val && b.val ≤ 57) || (97 ≤ b.val && b.val ≤ 102) ||
    (65 ≤ b.val && b.val ≤ 70)

/-- Hex-digit value on bytes. -/
def hexValB (b : Byte) : Nat :=
  if 48 ≤ b.val && b.val ≤ 57 then b.val - 48
  else if 97 ≤ b.val then b.val - 87
  else b.val - 55

/-- `+` back to space; every other byte unchanged. -/
def mapPlainB (b : Byte) : Byte := if b.val = 43 then byteOf 32 else b

/-- WHATWG percent-decoding over bytes; a `%` not followed by two hex digits
stays literal. -/
def decodeBytes : List Byte → List Byte
  | [] => []
  | b :: h1 :: h2 :: rest2 =>
    if b.val = 37 && isHexB h1 && isHexB h2 then
      byteOf (16 * hexValB h1 + hexValB h2) :: decodeBytes rest2
    else mapPlainB b :: decodeBytes (h1 :: h2 :: rest2)
  | b :: rest => mapPlainB b :: decodeBytes rest

/-- Split one byte-level `k=v` chunk and decode both sides. -/
def decodePairB (chunk : List Byte) : List Byte × List Byte :=
  match findSplit [byteOf 61] chunk with
  | some (k, v) => (decodeBytes k, decodeBytes v)
  | none => (decodeBytes chunk, [])

/-- Byte-level model of the server's URL-encoded body parser. -/
def parseUrlencodedBytes (body : List Byte) : List (List Byte × List Byte) :=
  (splitOnSep [byteOf 38] body).foldl
    (fun acc chunk => if chunk.isEmpty then acc else acc ++ [decodePairB chunk]) []

/-- Insert-or-update at the byte level (Hono's object conversion). -/
def upsertB : List (List Byte × List Byte) → List Byte → List Byte → List (List Byte × List Byte)
  | [], k, v => [(k, v)]
  | (k1, v1) :: t, k, v => if k1 = k then (k, v) :: t else (k1, v1) :: upsertB t k v

/-- Byte-level Hono `convertFormDataToBodyData`. -/
def toBodyDataB (pairs : List (List Byte × List Byte)) : List (List Byte × List Byte) :=
  pairs.foldl (fun m kv => upsertB m kv.1 kv.2) []

/-- Byte-level property read. -/
def getFieldB : List (List Byte × List Byte) → List Byte → Option (List Byte)
  | [], _ => none
  | (k1, v1) :: t, k => if k1 = k then some v1 else getFieldB t k

/-! # Lemmas -/

section Machinery

variable {α : Type} [DecidableEq α]

theorem startsWithL_refl_append (p t : List α) : startsWithL p (p ++ t) = true := by
  induction p with
  | nil => rfl
  | cons a as ih => simp [startsWithL, ih]

theorem startsWithL_ex {p l : List α} (h : startsWithL p l = true) : ∃ t, l = p ++ t := by
  induction p generalizing l with
  | nil => exact ⟨l, rfl⟩
  | cons a as ih =>
    cases l with
    | nil => simp [startsWithL] at h
    | cons b bs =>
      simp only [startsWithL, Bool.and_eq_true, decide_eq_true_eq] at h
      obtain ⟨t, ht⟩ := ih h.2
      exact ⟨t, by rw [h.1, ht]; rfl⟩

theorem startsWithL_length {p l : List α} (h : startsWithL p l = true) :
    p.length ≤ l.length := by
  obtain ⟨t, ht⟩ := startsWithL_ex h
  subst ht
  simp

theorem occursIn_of_starts {p l : List α} (h : startsWithL p l = true) :
    occursIn p l = true := by
  cases l with
  | nil => exact h
  | cons c cs => simp [occursIn, h]

theorem occursIn_cons_false {p : List α} {c : α} {l : List α}
    (h : occursIn p (c :: l) = false) : occursIn p l = false := by
  simp only [occursIn, Bool.or_eq_false_iff] at h
  exact h.2

theorem occursIn_append_false {p a l : List α} (h : occursIn p (a ++ l) = false) :
    occursIn p l = false := by
  induction a with
  | nil => exact h
  | cons c cs ih => exact ih (occursIn_cons_false h)

theorem occursIn_ex {p l : List α} (h : occursIn p l = true) :
    ∃ x y, l = x ++ (p ++ y) := by
  induction l with
  | nil =>
    cases p with
    | nil => exact ⟨[], [], rfl⟩
    | cons a as => simp [occursIn, startsWithL] at h
  | cons c cs ih =>
    simp only [occursIn, Bool.or_eq_true] at h
    cases h with
    | inl h1 =>
      obtain ⟨t, ht⟩ := startsWithL_ex h1
      exact ⟨[], t, ht⟩
    | inr h2 =>
      obtain ⟨x, y, hxy⟩ := ih h2
      exact ⟨c :: x, y, by rw [hxy]; rfl⟩

theorem occursIn_false_short {p l : List α} (h : l.length < p.length) :
    occursIn p l = false := by
  cases hx : occursIn p l with
  | false => rfl
  | true =>
    obtain ⟨x, y, hxy⟩ := occursIn_ex hx
    rw [hxy] at h
    simp [List.length_append] at h
    omega

theorem takeApp (A B : List α) (k : Nat) : (A ++ B).take (A.length + k) = A ++ B.take k := by
  induction A with
  | nil => simp
  | cons a A2 ih =>
    have : (a :: A2).length + k = (A2.length + k) + 1 := by simp; omega
    rw [this]
    simp only [List.cons_append, List.take_succ_cons, ih]

theorem takeAppLe (A B : List α) (k : Nat) (h : k ≤ A.length) :
    (A ++ B).take k = A.take k := by
  induction A generalizing k with
  | nil =>
    have : k = 0 := by simpa using h
    simp [this]
  | cons a A2 ih =>
    cases k with
    | zero => simp
    | succ k2 =>
      simp only [List.cons_append, List.take_succ_cons]
      rw [ih k2 (by simpa using h)]

theorem dropApp (A B : List α) : (A ++ B).drop A.length = B := by
  induction A with
  | nil => simp
  | cons a A2 ih => simpa using ih

theorem occur_of_starts_mid (sep a rest : List α) (hsep : sep ≠ []) (ha : a ≠ [])
    (h1 : startsWithL sep (a ++ (sep ++ rest)) = true) :
    occursIn sep (a ++ sep.dropLast) = true := by
  obtain ⟨t, ht⟩ := startsWithL_ex h1
  have hn : 1 ≤ sep.length := List.length_pos.mpr hsep
  have hal : 1 ≤ a.length := List.length_pos.mpr ha
  have h2 : a ++ sep.dropLast = (a ++ (sep ++ rest)).take (a.length + (sep.length - 1)) := by
    rw [takeApp, takeAppLe sep rest (sep.length - 1) (by omega), List.dropLast_eq_take]
  have h3 : (a ++ (sep ++ rest)).take sep.length = sep := by
    rw [ht]
    have h4 := takeApp sep t 0
    simpa using h4
  have h6 : ((a ++ (sep ++ rest)).take (a.length + (sep.length - 1))).take sep.length = sep := by
    rw [List.take_take, min_eq_left (by omega), h3]
  have h7 := List.take_append_drop sep.length ((a ++ (sep ++ rest)).take (a.length + (sep.length - 1)))
  rw [h6] at h7
  apply occursIn_of_starts
  rw [h2, ← h7]
  exact startsWithL_refl_append sep _

theorem starts_false_of_no_occur (sep a rest : List α) (hsep : sep ≠ []) (ha : a ≠ [])
    (h : occursIn sep (a ++ sep.dropLast) = false) :
    startsWithL sep (a ++ (sep ++ rest)) = false := by
  cases hx : startsWithL sep (a ++ (sep ++ rest)) with
  | false => rfl
  | true => rw [occur_of_starts_mid sep a rest hsep ha hx] at h; cases h

theorem findSplit_append (sep a rest : List α) (hsep : sep ≠ [])
    (h : occursIn sep (a ++ sep.dropLast) = false) :
    findSplit sep (a ++ (sep ++ rest)) = some (a, rest) := by
  induction a with
  | nil =>
    cases sep with
    | nil => exact absurd rfl hsep
    | cons s ss =>
      show findSplit (s :: ss) (s :: (ss ++ rest)) = _
      rw [findSplit]
      rw [show s :: (ss ++ rest) = (s :: ss) ++ rest from rfl,
        startsWithL_refl_append (s :: ss) rest]
      simp only [if_true]
      rw [dropApp (s :: ss) rest]
  | cons c a2 ih =>
    have hs := starts_false_of_no_occur sep (c :: a2) rest hsep (by simp) h
    show findSplit sep (c :: (a2 ++ (sep ++ rest))) = _
    rw [findSplit]
    rw [show c :: (a2 ++ (sep ++ rest)) = (c :: a2) ++ (sep ++ rest) from rfl, hs]
    simp only [Bool.false_eq_true, if_false]
    rw [ih (occursIn_cons_false (by rw [← List.cons_append]; exact h))]

theorem findSplit_none (sep l : List α) (hsep : sep ≠ []) (h : occursIn sep l = false) :
    findSplit sep l = none := by
  induction l with
  | nil =>
    rw [findSplit]
    simpa using hsep
  | cons c cs ih =>
    have h1 : startsWithL sep (c :: cs) = false := by
      cases hx : startsWithL sep (c :: cs) with
      | false => rfl
      | true => rw [occursIn_of_starts hx] at h; cases h
    rw [findSplit, h1]
    simp only [Bool.false_eq_true, if_false]
    rw [ih (occursIn_cons_false h)]

theorem splitAux_skip (sep x rest cur : List α) :
    splitAux sep x.length cur (x ++ rest) = splitAux sep 0 cur rest := by
  induction x with
  | nil => rfl
  | cons y x2 ih =>
    show splitAux sep (x2.length + 1) cur (y :: (x2 ++ rest)) = _
    rw [splitAux, ih]

theorem splitAux_append (sep a rest : List α) (hsep : sep ≠ [])
    (h : occursIn sep (a ++ sep.dropLast) = false) :
    ∀ cur, splitAux sep 0 cur (a ++ (sep ++ rest)) =
      (cur.reverse ++ a) :: splitAux sep 0 [] rest := by
  induction a with
  | nil =>
    intro cur
    cases sep with
    | nil => exact absurd rfl hsep
    | cons s ss =>
      show splitAux (s :: ss) 0 cur (s :: (ss ++ rest)) = _
      rw [splitAux]
      rw [show s :: (ss ++ rest) = (s :: ss) ++ rest from rfl,
        startsWithL_refl_append (s :: ss) rest]
      simp only [if_true]
      have hx : (s :: ss).length - 1 = ss.length := by simp
      rw [hx, splitAux_skip (s :: ss) ss rest []]
      simp
  | cons c a2 ih =>
    intro cur
    have hs := starts_false_of_no_occur sep (c :: a2) rest hsep (by simp) h
    show splitAux sep 0 cur (c :: (a2 ++ (sep ++ rest))) = _
    rw [splitAux]
    rw [show c :: (a2 ++ (sep ++ rest)) = (c :: a2) ++ (sep ++ rest) from rfl, hs]
    simp only [Bool.false_eq_true, if_false]
    rw [ih (occursIn_cons_false (by rw [← List.cons_append]; exact h)) (c :: cur)]
    simp

theorem splitAux_last (sep a : List α) (hsep : sep ≠ []) (h : occursIn sep a = false) :
    ∀ cur, splitAux sep 0 cur a = [cur.reverse ++ a] := by
  induction a with
  | nil => intro cur; simp [splitAux]
  | cons c a2 ih =>
    intro cur
    have h1 : startsWithL sep (c :: a2) = false := by
      cases hx : startsWithL sep (c :: a2) with
      | false => rfl
      | true => rw [occursIn_of_starts hx] at h; cases h
    rw [splitAux, h1]
    simp only [Bool.false_eq_true, if_false]
    rw [ih (occursIn_cons_false h) (c :: cur)]
    simp

theorem splitOnSep_append (sep a rest : List α) (hsep : sep ≠ [])
    (h : occursIn sep (a ++ sep.dropLast) = false) :
    splitOnSep sep (a ++ (sep ++ rest)) = a :: splitOnSep sep rest := by
  have he : sep.isEmpty = false := by cases sep with | nil => exact absurd rfl hsep | cons s ss => rfl
  rw [splitOnSep, splitOnSep, he]
  simp only [Bool.false_eq_true, if_false]
  rw [splitAux_append sep a rest hsep h []]
  simp

theorem splitOnSep_last (sep a : List α) (hsep : sep ≠ []) (h : occursIn sep a = false) :
    splitOnSep sep a = [a] := by
  have he : sep.isEmpty = false := by cases sep with | nil => exact absurd rfl hsep | cons s ss => rfl
  rw [splitOnSep, he]
  simp only [Bool.false_eq_true, if_false]
  rw [splitAux_last sep a hsep h []]
  simp

end Machinery

/-! ## Round-trip lemmas for the URL-encoded byte codec -/

set_option maxRecDepth 100000 in
theorem encByte_no_delims : ∀ b : Byte,
    (encByte b).all (fun x => !decide (x.val = 38) && !decide (x.val = 61)) = true := by
  decide

set_option maxRecDepth 100000 in
theorem encByte_hex_digits : ∀ b : Byte,
    isHexB (hexDigitByte (b.val / 16)) = true ∧ isHexB (hexDigitByte (b.val % 16)) = true := by
  decide

set_option maxRecDepth 100000 in
theorem hex_round_trip : ∀ b : Byte,
    byteOf (16 * hexValB (hexDigitByte (b.val / 16)) + hexValB (hexDigitByte (b.val % 16))) = b := by
  decide

set_option maxRecDepth 100000 in
theorem unreserved_not_special : ∀ b : Byte,
    isUnreservedB b = true → ¬b.val = 37 ∧ ¬b.val = 43 := by
  decide

theorem decodeBytes_cons_ne37 (x : Byte) (hx : ¬x.val = 37) (rest : List Byte) :
    decodeBytes (x :: rest) = mapPlainB x :: decodeBytes rest := by
  match rest with
  | [] => rfl
  | [y] => rfl
  | y :: z :: t2 => simp [decodeBytes, hx]

theorem decodeBytes_enc_cons (b : Byte) (rest : List Byte) :
    decodeBytes (encByte b ++ rest) = b :: decodeBytes rest := by
  by_cases h32 : b.val = 32
  · have he : encByte b = [byteOf 43] := by rw [encByte, if_pos h32]
    rw [he, List.cons_append, List.nil_append,
      decodeBytes_cons_ne37 (byteOf 43) (by decide) rest]
    have h1 : mapPlainB (byteOf 43) = byteOf 32 := by decide
    have hb : byteOf 32 = b := by
      apply Fin.ext
      rw [h32]
      rfl
    rw [h1, hb]
  · by_cases hu : isUnreservedB b = true
    · have he : encByte b = [b] := by rw [encByte, if_neg h32, if_pos hu]
      have hns := unreserved_not_special b hu
      rw [he, List.cons_append, List.nil_append, decodeBytes_cons_ne37 b hns.1 rest]
      have hb : mapPlainB b = b := by rw [mapPlainB, if_neg hns.2]
      rw [hb]
    · have he : encByte b =
          [byteOf 37, hexDigitByte (b.val / 16), hexDigitByte (b.val % 16)] := by
        rw [encByte, if_neg h32, if_neg hu]
      have hh := encByte_hex_digits b
      rw [he]
      show decodeBytes (byteOf 37 :: hexDigitByte (b.val / 16) ::
        hexDigitByte (b.val % 16) :: rest) = _
      rw [decodeBytes]
      have hc : (byteOf 37).val = 37 := by decide
      rw [if_pos (by rw [hc, hh.1, hh.2]; rfl)]
      rw [hex_round_trip b]

theorem decode_serialize (v : List Byte) : decodeBytes (serializeComponent v) = v := by
  induction v with
  | nil => rfl
  | cons b t ih =>
    show decodeBytes (encByte b ++ serializeComponent t) = _
    rw [decodeBytes_enc_cons, ih]

theorem mem_serialize {x : Byte} {v : List Byte} (hx : x ∈ serializeComponent v) :
    ∃ b ∈ v, x ∈ encByte b := by
  induction v with
  | nil => cases hx
  | cons b t ih =>
    have hx2 : x ∈ encByte b ++ serializeComponent t := hx
    rcases List.mem_append.mp hx2 with h1 | h2
    · exact ⟨b, List.mem_cons_self b t, h1⟩
    · obtain ⟨c, hc, hxc⟩ := ih h2
      exact ⟨c, List.mem_cons_of_mem b hc, hxc⟩

theorem occursIn_singleton_false {α : Type} [DecidableEq α] {c : α} {l : List α}
    (h : c ∉ l) : occursIn [c] l = false := by
  induction l with
  | nil => rfl
  | cons d t ih =>
    have hcd : ¬c = d := fun he => h (he ▸ List.mem_cons_self d t)
    have ht : c ∉ t := fun hm => h (List.mem_cons_of_mem d hm)
    simp [occursIn, startsWithL, hcd, ih ht]

theorem serialize_no38 (v : List Byte) : byteOf 38 ∉ serializeComponent v := by
  intro hm
  obtain ⟨b, _, hxb⟩ := mem_serialize hm
  have hall := (List.all_eq_true.mp (encByte_no_delims b)) _ hxb
  simp at hall
  exact hall.1 (by decide)

theorem serialize_no61 (v : List Byte) : byteOf 61 ∉ serializeComponent v := by
  intro hm
  obtain ⟨b, _, hxb⟩ := mem_serialize hm
  have hall := (List.all_eq_true.mp (encByte_no_delims b)) _ hxb
  simp at hall
  exact hall.2 (by decide)

/-! ## `escapeHtml` lemmas -/

theorem replaceAllC_append (c : Char) (r a b : List Char) :
    replaceAllC c r (a ++ b) = replaceAllC c r a ++ replaceAllC c r b := by
  induction a with
  | nil => rfl
  | cons x xs ih =>
    show replaceAllC c r (x :: (xs ++ b)) = _
    rw [replaceAllC, ih, replaceAllC]
    rw [List.append_assoc]

theorem escapeHtmlL_cons (c : Char) (l : List Char) :
    escapeHtmlL (c :: l) = entOf c ++ escapeHtmlL l := by
  have h1 : replaceAllC '&' ("&amp;").data (c :: l) =
      (if c = '&' then ("&amp;").data else [c]) ++ replaceAllC '&' ("&amp;").data l := rfl
  rw [escapeHtmlL, h1, replaceAllC_append, replaceAllC_append, replaceAllC_append]
  rw [show replaceAllC '"' ("&quot;").data
        (replaceAllC '>' ("&gt;").data
          (replaceAllC '<' ("&lt;").data (replaceAllC '&' ("&amp;").data l))) =
      escapeHtmlL l from rfl]
  congr 1
  by_cases h2 : c = '&'
  · subst h2; rfl
  · rw [if_neg h2]
    by_cases h3 : c = '<'
    · subst h3; rfl
    · by_cases h4 : c = '>'
      · subst h4; rfl
      · by_cases h5 : c = '"'
        · subst h5; rfl
        · rw [entOf, if_neg h2, if_neg h3, if_neg h4, if_neg h5]
          have e1 : replaceAllC '<' ("&lt;").data [c] = [c] := by
            simp [replaceAllC, h3]
          have e2 : replaceAllC '>' ("&gt;").data [c] = [c] := by
            simp [replaceAllC, h4]
          have e3 : replaceAllC '"' ("&quot;").data [c] = [c] := by
            simp [replaceAllC, h5]
          rw [e1, e2, e3]

theorem wEsc_cons_other {c : Char} (h2 : ¬c = '&') (h3 : ¬c = '<') (h4 : ¬c = '>')
    (h5 : ¬c = '"') (rest : List Char) : wEsc (c :: rest) = wEsc rest := by
  rw [wEsc]
  · simp [h3, h4, h5]
  · exact h2

theorem wEsc_ent_append (c : Char) (rest : List Char) :
    wEsc (entOf c ++ rest) = wEsc rest := by
  by_cases h2 : c = '&'
  · subst h2
    show wEsc ('&' :: 'a' :: 'm' :: 'p' :: ';' :: rest) = _
    rw [wEsc]
    have ht : entTail ('a' :: 'm' :: 'p' :: ';' :: rest) = true := by
      simp [entTail, startsWithL]
    rw [ht]
    rw [wEsc_cons_other (by decide) (by decide) (by decide) (by decide)]
    rw [wEsc_cons_other (by decide) (by decide) (by decide) (by decide)]
    rw [wEsc_cons_other (by decide) (by decide) (by decide) (by decide)]
    rw [wEsc_cons_other (by decide) (by decide) (by decide) (by decide)]
    simp
  · by_cases h3 : c = '<'
    · subst h3
      show wEsc ('&' :: 'l' :: 't' :: ';' :: rest) = _
      rw [wEsc]
      have ht : entTail ('l' :: 't' :: ';' :: rest) = true := by
        simp [entTail, startsWithL]
      rw [ht]
      rw [wEsc_cons_other (by decide) (by decide) (by decide) (by decide)]
      rw [wEsc_cons_other (by decide) (by decide) (by decide) (by decide)]
      rw [wEsc_cons_other (by decide) (by decide) (by decide) (by decide)]
      simp
    · by_cases h4 : c = '>'
      · subst h4
        show wEsc ('&' :: 'g' :: 't' :: ';' :: rest) = _
        rw [wEsc]
        have ht : entTail ('g' :: 't' :: ';' :: rest) = true := by
          simp [entTail, startsWithL]
        rw [ht]
        rw [wEsc_cons_other (by decide) (by decide) (by decide) (by decide)]
        rw [wEsc_cons_other (by decide) (by decide) (by decide) (by decide)]
        rw [wEsc_cons_other (by decide) (by decide) (by decide) (by decide)]
        simp
      · by_cases h5 : c = '"'
        · subst h5
          show wEsc ('&' :: 'q' :: 'u' :: 'o' :: 't' :: ';' :: rest) = _
          rw [wEsc]
          have ht : entTail ('q' :: 'u' :: 'o' :: 't' :: ';' :: rest) = true := by
            simp [entTail, startsWithL]
          rw [ht]
          rw [wEsc_cons_other (by decide) (by decide) (by decide) (by decide)]
          rw [wEsc_cons_other (by decide) (by decide) (by decide) (by decide)]
          rw [wEsc_cons_other (by decide) (by decide) (by decide) (by decide)]
          rw [wEsc_cons_other (by decide) (by decide) (by decide) (by decide)]
          rw [wEsc_cons_other (by decide) (by decide) (by decide) (by decide)]
          simp
        · rw [entOf, if_neg h2, if_neg h3, if_neg h4, if_neg h5,
            List.cons_append, List.nil_append]
          exact wEsc_cons_other h2 h3 h4 h5 rest

theorem wEsc_escapeHtmlL (l : List Char) : wEsc (escapeHtmlL l) = true := by
  induction l with
  | nil => rfl
  | cons c t ih => rw [escapeHtmlL_cons, wEsc_ent_append, ih]

theorem wEsc_no_bad {l : List Char} (h : wEsc l = true) :
    '<' ∉ l ∧ '>' ∉ l ∧ '"' ∉ l := by
  induction l with
  | nil => exact ⟨by simp, by simp, by simp⟩
  | cons c t ih =>
    by_cases h2 : c = '&'
    · subst h2
      rw [wEsc] at h
      have h6 := (Bool.and_eq_true _ _).mp h
      have := ih h6.2
      refine ⟨?_, ?_, ?_⟩ <;> simp [this.1, this.2.1, this.2.2]
    · rw [wEsc] at h
      · have h6 := (Bool.and_eq_true _ _).mp h
        have h7 := ih h6.2
        have h8 : ¬(c = '<' || c = '>' || c = '"') = true := by
          simpa using h6.1
        simp only [Bool.or_eq_true, decide_eq_true_eq] at h8
        push_neg at h8
        refine ⟨?_, ?_, ?_⟩
        · intro hm
          rcases List.mem_cons.mp hm with he | hmem
          · exact h8.1.1 he.symm
          · exact h7.1 hmem
        · intro hm
          rcases List.mem_cons.mp hm with he | hmem
          · exact h8.1.2 he.symm
          · exact h7.2.1 hmem
        · intro hm
          rcases List.mem_cons.mp hm with he | hmem
          · exact h8.2 he.symm
          · exact h7.2.2 hmem
      · exact h2

theorem countCh_append (c : Char) (a b : List Char) :
    countCh c (a ++ b) = countCh c a + countCh c b := by
  induction a with
  | nil => simp [countCh]
  | cons x xs ih =>
    show countCh c (x :: (xs ++ b)) = _
    rw [countCh, ih, countCh]
    omega

theorem countCh_zero_of_not_mem {c : Char} {l : List Char} (h : c ∉ l) :
    countCh c l = 0 := by
  induction l with
  | nil => rfl
  | cons x xs ih =>
    have hx : ¬x = c := fun he => h (he ▸ List.mem_cons_self x xs)
    rw [countCh, if_neg hx, ih (fun hm => h (List.mem_cons_of_mem x hm))]

theorem countCh_escape_lt (s : String) : countCh '<' (escapeHtml s).data = 0 :=
  countCh_zero_of_not_mem (wEsc_no_bad (wEsc_escapeHtmlL s.data)).1

theorem countCh_escape_gt (s : String) : countCh '>' (escapeHtml s).data = 0 :=
  countCh_zero_of_not_mem (wEsc_no_bad (wEsc_escapeHtmlL s.data)).2.1

theorem countCh_escape_quot (s : String) : countCh '"' (escapeHtml s).data = 0 :=
  countCh_zero_of_not_mem (wEsc_no_bad (wEsc_escapeHtmlL s.data)).2.2

set_option maxRecDepth 100000 in
/-- C10: the claim as stated is false on the code. `escapeHtml` is applied
to the echoed email, but the path-segment-derived link URLs are interpolated
into every form-route page unescaped, so a crafted path segment (Hono hands
the handler the URI-decoded segment) injects markup: this concrete request
succeeds and its response HTML contains the attacker's
`<script>alert(1)</script>` verbatim. -/
theorem c10_unescaped_markup_counterexample :
    handleFormSubmission
        ⟨"x\"><script>alert(1)</script>", "POST", "u", none,
          some "application/x-www-form-urlencoded", none, none, none, none,
          none, none, none, "email=a%40b.com&password=x"⟩ =
      ⟨200, .html (successPage "/x\"><script>alert(1)</script>" "a@b.com")⟩ ∧
    occursIn ("<script>alert(1)</script>").data
        (successPage "/x\"><script>alert(1)</script>" "a@b.com").data = true := by
  constructor
  · rfl
  · rfl

/-- C10 (amended): for every input, `escapeHtml`'s output has no `<`, `>` or
`"` and every `&` heads an entity the escaper introduced; the user-influenced
strings the claim enumerates (echoed email, error message, serialized debug
info) pass through `escapeHtml`, so they cannot change the number of `<`,
`>` or `"` characters of any form-route page. The path-segment-derived link
URLs, however, are interpolated without escaping (see the counterexample),
so the pages are not markup-injection-free in general. -/
theorem c10_escaping_amended :
    (∀ s : String, wEsc (escapeHtml s).data = true) ∧
    (∀ bp e1 e2 : String,
      countCh '<' (successPage bp e1).data = countCh '<' (successPage bp e2).data ∧
      countCh '>' (successPage bp e1).data = countCh '>' (successPage bp e2).data ∧
      countCh '"' (successPage bp e1).data = countCh '"' (successPage bp e2).data) ∧
    (∀ bp m1 m2 : String,
      countCh '<' (errorPage bp m1).data = countCh '<' (errorPage bp m2).data ∧
      countCh '>' (errorPage bp m1).data = countCh '>' (errorPage bp m2).data ∧
      countCh '"' (errorPage bp m1).data = countCh '"' (errorPage bp m2).data) ∧
    (∀ (bp : String) (i1 i2 : DebugInfo),
      countCh '<' (debugPage bp i1).data = countCh '<' (debugPage bp i2).data ∧
      countCh '>' (debugPage bp i1).data = countCh '>' (debugPage bp i2).data ∧
      countCh '"' (debugPage bp i1).data = countCh '"' (debugPage bp i2).data) ∧
    (∀ (bp : String) (i1 i2 : DebugErrInfo),
      countCh '<' (debugErrorPage bp i1).data = countCh '<' (debugErrorPage bp i2).data ∧
      countCh '>' (debugErrorPage bp i1).data = countCh '>' (debugErrorPage bp i2).data ∧
      countCh '"' (debugErrorPage bp i1).data = countCh '"' (debugErrorPage bp i2).data) := by
  refine ⟨fun s => wEsc_escapeHtmlL s.data, ?_, ?_, ?_, ?_⟩
  · intro bp e1 e2
    refine ⟨?_, ?_, ?_⟩ <;>
      simp only [successPage, String.data_append, countCh_append, countCh_escape_lt,
        countCh_escape_gt, countCh_escape_quot]
  · intro bp m1 m2
    refine ⟨?_, ?_, ?_⟩ <;>
      simp only [errorPage, String.data_append, countCh_append, countCh_escape_lt,
        countCh_escape_gt, countCh_escape_quot]
  · intro bp i1 i2
    refine ⟨?_, ?_, ?_⟩ <;>
      simp only [debugPage, String.data_append, countCh_append, countCh_escape_lt,
        countCh_escape_gt, countCh_escape_quot]
  · intro bp i1 i2
    refine ⟨?_, ?_, ?_⟩ <;>
      simp only [debugErrorPage, String.data_append, countCh_append, countCh_escape_lt,
        countCh_escape_gt, countCh_escape_quot]

/-! ## Redaction lemmas -/

theorem dropWhile_ne_through (val rest : List Char) (h : '&' ∉ val) :
    (val ++ '&' :: rest).dropWhile (fun d => !(d = '&')) = '&' :: rest := by
  induction val with
  | nil => simp [List.dropWhile]
  | cons c t ih =>
    have hc : ¬c = '&' := fun he => h (he ▸ List.mem_cons_self c t)
    have ht : '&' ∉ t := fun hm => h (List.mem_cons_of_mem c hm)
    simpa [List.dropWhile, hc] using ih ht

theorem dropWhile_ne_all (val : List Char) (h : '&' ∉ val) :
    val.dropWhile (fun d => !(d = '&')) = [] := by
  induction val with
  | nil => rfl
  | cons c t ih =>
    have hc : ¬c = '&' := fun he => h (he ▸ List.mem_cons_self c t)
    have ht : '&' ∉ t := fun hm => h (List.mem_cons_of_mem c hm)
    simpa [List.dropWhile, hc] using ih ht

theorem startsWithCI_head_append (key pre t : List Char)
    (hk : pre.map Char.toLower = key) : startsWithCI key (pre ++ t) = true := by
  rw [startsWithCI, List.map_append, hk]
  exact startsWithL_refl_append _ _

theorem replaceFirst_at_head (key repl pre val rest2 : List Char)
    (hk : pre.map Char.toLower = key) (hpre : pre ≠ []) (hval : '&' ∉ val) :
    replaceKeyRunFirst key repl (pre ++ (val ++ '&' :: rest2)) = repl ++ '&' :: rest2 := by
  cases pre with
  | nil => exact absurd rfl hpre
  | cons c pcs =>
    show replaceKeyRunFirst key repl (c :: (pcs ++ (val ++ '&' :: rest2))) = _
    rw [replaceKeyRunFirst]
    have hs : startsWithCI key (c :: (pcs ++ (val ++ '&' :: rest2))) = true := by
      have h2 := startsWithCI_head_append key (c :: pcs) (val ++ '&' :: rest2) hk
      simpa using h2
    rw [if_pos hs]
    have hlen : key.length = (c :: pcs).length := by
      rw [← hk, List.length_map]
    congr 1
    rw [show c :: (pcs ++ (val ++ '&' :: rest2)) = (c :: pcs) ++ (val ++ '&' :: rest2)
      from rfl]
    rw [hlen, dropApp]
    exact dropWhile_ne_through val rest2 hval

theorem replaceFirst_at_head_end (key repl pre val : List Char)
    (hk : pre.map Char.toLower = key) (hpre : pre ≠ []) (hval : '&' ∉ val) :
    replaceKeyRunFirst key repl (pre ++ val) = repl := by
  cases pre with
  | nil => exact absurd rfl hpre
  | cons c pcs =>
    show replaceKeyRunFirst key repl (c :: (pcs ++ val)) = _
    rw [replaceKeyRunFirst]
    have hs : startsWithCI key (c :: (pcs ++ val)) = true := by
      have h2 := startsWithCI_head_append key (c :: pcs) val hk
      simpa using h2
    rw [if_pos hs]
    have hlen : key.length = (c :: pcs).length := by
      rw [← hk, List.length_map]
    rw [show c :: (pcs ++ val) = (c :: pcs) ++ val from rfl, hlen, dropApp,
      dropWhile_ne_all val hval, List.append_nil]

theorem replaceFirst_skip_all (k0 : Char) (krest repl pre t : List Char)
    (h : ∀ c ∈ pre, ¬k0 = Char.toLower c) :
    replaceKeyRunFirst (k0 :: krest) repl (pre ++ t) =
      pre ++ replaceKeyRunFirst (k0 :: krest) repl t := by
  induction pre with
  | nil => rfl
  | cons c pcs ih =>
    show replaceKeyRunFirst (k0 :: krest) repl (c :: (pcs ++ t)) = _
    rw [replaceKeyRunFirst]
    have hs : startsWithCI (k0 :: krest) (c :: (pcs ++ t)) = false := by
      rw [startsWithCI, List.map_cons, startsWithL]
      simp [h c (List.mem_cons_self c pcs)]
    have hs2 : ¬startsWithCI (k0 :: krest) (c :: (pcs ++ t)) = true := by
      rw [hs]; simp
    rw [if_neg hs2, ih (fun d hd => h d (List.mem_cons_of_mem c hd))]
    simp

/-- The scan passes over a prefix `x` untouched whenever no case-insensitive
occurrence of the key starts inside `x` — including occurrences straddling
the end of `x` and the genuine key occurrence that heads `t`. -/
theorem replaceFirst_skip_to_key (key repl x t : List Char) (hkey : key ≠ [])
    (ht : startsWithL key (t.map Char.toLower) = true)
    (h : occursIn key (x.map Char.toLower ++ key.dropLast) = false) :
    replaceKeyRunFirst key repl (x ++ t) = x ++ replaceKeyRunFirst key repl t := by
  induction x with
  | nil => rfl
  | cons c x2 ih =>
    show replaceKeyRunFirst key repl (c :: (x2 ++ t)) = _
    rw [replaceKeyRunFirst]
    have hs : startsWithCI key (c :: (x2 ++ t)) = false := by
      cases hx : startsWithCI key (c :: (x2 ++ t)) with
      | false => rfl
      | true =>
        exfalso
        rw [startsWithCI] at hx
        obtain ⟨w, hw⟩ := startsWithL_ex ht
        rw [show (c :: (x2 ++ t)).map Char.toLower =
            ((c :: x2).map Char.toLower) ++ (t.map Char.toLower) from by simp,
          hw] at hx
        have hocc := occur_of_starts_mid key ((c :: x2).map Char.toLower) w hkey
          (by simp) hx
        rw [hocc] at h
        cases h
    have hs2 : ¬startsWithCI key (c :: (x2 ++ t)) = true := by rw [hs]; simp
    rw [if_neg hs2]
    have h2 : occursIn key (x2.map Char.toLower ++ key.dropLast) = false := by
      apply occursIn_cons_false (c := Char.toLower c)
      rw [show Char.toLower c :: (x2.map Char.toLower ++ key.dropLast) =
          (c :: x2).map Char.toLower ++ key.dropLast from by simp]
      exact h
    rw [ih h2]
    simp

/-- Full description of one replacement pass on a body holding exactly one
case-insensitive key occurrence (spelled `pre2`): the prefix `pre` is kept,
then the key and its `&`-free value run `val` become `repl`, and the tail
(which is empty or starts with `&`) is kept. -/
theorem replaceKeyRunFirst_single (key repl pre pre2 val tail : List Char)
    (hkey : key ≠ [])
    (hk : pre2.map Char.toLower = key)
    (hval : '&' ∉ val)
    (htail : tail = [] ∨ ∃ t2, tail = '&' :: t2)
    (hpre : occursIn key (pre.map Char.toLower ++ key.dropLast) = false) :
    replaceKeyRunFirst key repl (pre ++ (pre2 ++ (val ++ tail))) =
      pre ++ (repl ++ tail) := by
  have hpre2 : pre2 ≠ [] := by
    intro h0
    rw [h0] at hk
    exact hkey hk.symm
  have ht : startsWithL key ((pre2 ++ (val ++ tail)).map Char.toLower) = true := by
    rw [List.map_append, hk]
    exact startsWithL_refl_append _ _
  rw [replaceFirst_skip_to_key key repl pre (pre2 ++ (val ++ tail)) hkey ht hpre]
  congr 1
  rcases htail with h0 | ⟨t2, h0⟩
  · rw [h0, show val ++ ([] : List Char) = val from by simp]
    rw [replaceFirst_at_head_end key repl pre2 val hk hpre2 hval]
    simp
  · rw [h0]
    exact replaceFirst_at_head key repl pre2 val t2 hk hpre2 hval

theorem handleFormSubmission_debug_ok (r : FormReq) (fields : List (String × String))
    (hp : parseBodyHono r.contentType r.rawBody = .ok fields)
    (hd : (decide (r.queryDebug = some "1") || hasDebugToken r.rawBody) = true) :
    handleFormSubmission r =
      ⟨200, .html (debugPage (basePathOf r.pathSegment) (mkDebugInfo r fields))⟩ := by
  unfold handleFormSubmission handleFormSubmissionWith
  rw [hp]
  dsimp only
  rw [if_pos hd]

theorem handleFormSubmission_debug_err (r : FormReq) (e : AppErr)
    (hp : parseBodyHono r.contentType r.rawBody = .error e)
    (hd : (decide (r.queryDebug = some "1") || hasDebugToken r.rawBody) = true) :
    handleFormSubmission r =
      ⟨400, .html (debugErrorPage (basePathOf r.pathSegment) (mkDebugErrInfo r e))⟩ := by
  unfold handleFormSubmission handleFormSubmissionWith
  rw [hp]
  dsimp only
  rw [if_pos hd]

set_option maxRecDepth 100000 in
/-- C4: the claim as stated is false on the code. The redaction regexes have
no global flag, so only the first `email=` occurrence is masked; in this
concrete debug request a second `email=` occurrence survives redaction and
its raw value `LEAK` appears verbatim in the served debug page. -/
theorem c4_redaction_counterexample :
    redactRawText "debug=1&email=a&email=LEAK&password=x" =
      "debug=1&email=[redacted]&email=LEAK&password=[redacted]" ∧
    (handleFormSubmission ⟨"", "POST", "u", none,
        some "application/x-www-form-urlencoded", none, none, none, none,
        none, none, none, "debug=1&email=a&email=LEAK&password=x"⟩).status = 200 ∧
    occursIn ("email=LEAK").data
        ((respHtmlText (handleFormSubmission ⟨"", "POST", "u", none,
          some "application/x-www-form-urlencoded", none, none, none, none,
          none, none, none, "debug=1&email=a&email=LEAK&password=x"⟩)).getD "").data =
      true := by
  refine ⟨rfl, rfl, ?_⟩
  rfl

/-- C4 (amended): redaction masks the first case-insensitive occurrence of
`email=` and of `password=` together with the full `&`-free value run. For
any raw body in which each key occurs once — in either order, in any letter
case (`pre2`/`pre3` are the occurrences' spellings), with arbitrary
surrounding text `x`/`y`/`z` such as a leading `debug=1&` token — and whose
values are `&`-free runs delimited by `&` or the end of the body, both
credential values are replaced by `[redacted]`; the single-occurrence
provisos are the decidable `occursIn` hypotheses, stated over the prefixes
each replacement pass actually scans. Moreover a debug-mode request's raw
body reaches the served debug page only as the 400-character preview of the
redacted text, in the successful-parse and parse-error branches alike.
Occurrences after the first are not masked (see the counterexample). -/
theorem c4_redaction_amended :
    (∀ x pre2 e y pre3 p z : List Char,
      pre2.map Char.toLower = ("email=").data →
      pre3.map Char.toLower = ("password=").data →
      '&' ∉ e → '&' ∉ p →
      (z = [] ∨ ∃ z2, z = '&' :: z2) →
      occursIn ("email=").data
        (x.map Char.toLower ++ (("email=").data).dropLast) = false →
      occursIn ("password=").data
        ((x ++ (("email=[redacted]").data ++ '&' :: y)).map Char.toLower ++
          (("password=").data).dropLast) = false →
      redactRawText ⟨x ++ (pre2 ++ (e ++ ('&' :: (y ++ (pre3 ++ (p ++ z))))))⟩ =
        ⟨x ++ (("email=[redacted]").data ++
          ('&' :: (y ++ (("password=[redacted]").data ++ z))))⟩) ∧
    (∀ x pre3 p y pre2 e z : List Char,
      pre2.map Char.toLower = ("email=").data →
      pre3.map Char.toLower = ("password=").data →
      '&' ∉ e → '&' ∉ p →
      (z = [] ∨ ∃ z2, z = '&' :: z2) →
      occursIn ("email=").data
        ((x ++ (pre3 ++ (p ++ ('&' :: y)))).map Char.toLower ++
          (("email=").data).dropLast) = false →
      occursIn ("password=").data
        (x.map Char.toLower ++ (("password=").data).dropLast) = false →
      redactRawText ⟨x ++ (pre3 ++ (p ++ ('&' :: (y ++ (pre2 ++ (e ++ z))))))⟩ =
        ⟨x ++ (("password=[redacted]").data ++
          ('&' :: (y ++ (("email=[redacted]").data ++ z))))⟩) ∧
    (∀ (r : FormReq) (fields : List (String × String)),
      parseBodyHono r.contentType r.rawBody = .ok fields →
      (decide (r.queryDebug = some "1") || hasDebugToken r.rawBody) = true →
      handleFormSubmission r =
        ⟨200, .html (debugPage (basePathOf r.pathSegment) (mkDebugInfo r fields))⟩ ∧
      (mkDebugInfo r fields).rawBody.preview =
        ⟨(redactRawText r.rawBody).data.take 400⟩) ∧
    (∀ (r : FormReq) (err : AppErr),
      parseBodyHono r.contentType r.rawBody = .error err →
      (decide (r.queryDebug = some "1") || hasDebugToken r.rawBody) = true →
      handleFormSubmission r =
        ⟨400, .html (debugErrorPage (basePathOf r.pathSegment)
          (mkDebugErrInfo r err))⟩ ∧
      (mkDebugErrInfo r err).rawBody.preview =
        ⟨(redactRawText r.rawBody).data.take 400⟩) := by
  refine ⟨?_, ?_, ?_, ?_⟩
  · intro x pre2 e y pre3 p z hk2 hk3 he hp hz hx1 hx2
    rw [redactRawText]
    refine congrArg String.mk ?_
    show replaceKeyRunFirst ("password=").data ("password=[redacted]").data
        (replaceKeyRunFirst ("email=").data ("email=[redacted]").data
          (x ++ (pre2 ++ (e ++ ('&' :: (y ++ (pre3 ++ (p ++ z)))))))) =
      x ++ (("email=[redacted]").data ++
        ('&' :: (y ++ (("password=[redacted]").data ++ z))))
    rw [replaceKeyRunFirst_single ("email=").data ("email=[redacted]").data x pre2
      e ('&' :: (y ++ (pre3 ++ (p ++ z)))) (by decide) hk2 he
      (Or.inr ⟨y ++ (pre3 ++ (p ++ z)), rfl⟩) hx1]
    rw [show x ++ (("email=[redacted]").data ++ '&' :: (y ++ (pre3 ++ (p ++ z)))) =
        (x ++ (("email=[redacted]").data ++ '&' :: y)) ++ (pre3 ++ (p ++ z))
      from by simp]
    rw [replaceKeyRunFirst_single ("password=").data ("password=[redacted]").data
      (x ++ (("email=[redacted]").data ++ '&' :: y)) pre3 p z (by decide) hk3 hp
      hz hx2]
    simp
  · intro x pre3 p y pre2 e z hk2 hk3 he hp hz hx1 hx2
    rw [redactRawText]
    refine congrArg String.mk ?_
    show replaceKeyRunFirst ("password=").data ("password=[redacted]").data
        (replaceKeyRunFirst ("email=").data ("email=[redacted]").data
          (x ++ (pre3 ++ (p ++ ('&' :: (y ++ (pre2 ++ (e ++ z)))))))) =
      x ++ (("password=[redacted]").data ++
        ('&' :: (y ++ (("email=[redacted]").data ++ z))))
    rw [show x ++ (pre3 ++ (p ++ ('&' :: (y ++ (pre2 ++ (e ++ z)))))) =
        (x ++ (pre3 ++ (p ++ ('&' :: y)))) ++ (pre2 ++ (e ++ z)) from by simp]
    rw [replaceKeyRunFirst_single ("email=").data ("email=[redacted]").data
      (x ++ (pre3 ++ (p ++ ('&' :: y)))) pre2 e z (by decide) hk2 he hz hx1]
    rw [show (x ++ (pre3 ++ (p ++ ('&' :: y)))) ++ (("email=[redacted]").data ++ z) =
        x ++ (pre3 ++ (p ++ ('&' :: (y ++ (("email=[redacted]").data ++ z)))))
      from by simp]
    rw [replaceKeyRunFirst_single ("password=").data ("password=[redacted]").data
      x pre3 p ('&' :: (y ++ (("email=[redacted]").data ++ z))) (by decide) hk3 hp
      (Or.inr ⟨y ++ (("email=[redacted]").data ++ z), rfl⟩) hx2]
  · intro r fields hpb hd
    exact ⟨handleFormSubmission_debug_ok r fields hpb hd, rfl⟩
  · intro r err hpb hd
    exact ⟨handleFormSubmission_debug_err r err hpb hd, rfl⟩

set_option maxRecDepth 200000 in
/-- C4 amended, witnessed at the body-requested debug body
`debug=1&email=a&password=b` and at the debug request that serves it. -/
theorem c4_redaction_amended_witness :
    redactRawText ⟨("debug=1&").data ++ (("email=").data ++ (['a'] ++
        ('&' :: (([] : List Char) ++ (("password=").data ++ (['b'] ++ []))))))⟩ =
      ⟨("debug=1&").data ++ (("email=[redacted]").data ++
        ('&' :: (([] : List Char) ++ (("password=[redacted]").data ++ []))))⟩ ∧
    redactRawText "debug=1&email=a&password=b" =
      "debug=1&email=[redacted]&password=[redacted]" ∧
    handleFormSubmission ⟨"", "POST", "u", none,
        some "application/x-www-form-urlencoded", none, none, none, none,
        none, none, none, "debug=1&email=a&password=b"⟩ =
      ⟨200, .html (debugPage (basePathOf "")
        (mkDebugInfo ⟨"", "POST", "u", none,
          some "application/x-www-form-urlencoded", none, none, none, none,
          none, none, none, "debug=1&email=a&password=b"⟩
          [("debug", "1"), ("email", "a"), ("password", "b")]))⟩ ∧
    (mkDebugInfo ⟨"", "POST", "u", none,
        some "application/x-www-form-urlencoded", none, none, none, none,
        none, none, none, "debug=1&email=a&password=b"⟩
        [("debug", "1"), ("email", "a"), ("password", "b")]).rawBody.preview =
      ⟨(redactRawText "debug=1&email=a&password=b").data.take 400⟩ := by
  refine ⟨?_, ?_, ?_, ?_⟩
  · exact c4_redaction_amended.1 ("debug=1&").data ("email=").data ['a'] []
      ("password=").data ['b'] [] (by decide) (by decide) (by decide) (by decide)
      (Or.inl rfl) (by decide) (by decide)
  · rfl
  · exact (c4_redaction_amended.2.2.1 ⟨"", "POST", "u", none,
      some "application/x-www-form-urlencoded", none, none, none, none,
      none, none, none, "debug=1&email=a&password=b"⟩
      [("debug", "1"), ("email", "a"), ("password", "b")] rfl rfl).1
  · exact (c4_redaction_amended.2.2.1 ⟨"", "POST", "u", none,
      some "application/x-www-form-urlencoded", none, none, none, none,
      none, none, none, "debug=1&email=a&password=b"⟩
      [("debug", "1"), ("email", "a"), ("password", "b")] rfl rfl).2

/-! ## API route claims -/

/-- C5: a JSON request to a create-account API route whose body is
`{email: e, password: p}` with `e` and `p` non-blank after trimming gets the
200 success response echoing `e` and carrying the captured path segment. -/
theorem c5_json_success (e p raw : String) (seg : Option String)
    (he : ¬jsTrim e = "") (hp : ¬jsTrim p = "") :
    handleLogin (some "application/json") raw
        (some (.obj [("email", .str e), ("password", .str p)])) seg =
      apiSuccess e seg := by
  have he0 : ¬e = "" := fun h0 => he (by rw [h0]; rfl)
  have hp0 : ¬p = "" := fun h0 => hp (by rw [h0]; rfl)
  have hct : containsStr "application/json"
      (toLowerStr ((some "application/json" : Option String).getD "")) = true := by decide
  rw [handleLogin, parseRequestBody]
  simp only [hct, if_true]
  rw [handleLoginJson]
  have hE : jsGetField (.obj [("email", JsonVal.str e), ("password", JsonVal.str p)])
      "email" = .ok (some (.str e)) := by
    rw [jsGetField, lookupJ]
    simp
  have hP : jsGetField (.obj [("email", JsonVal.str e), ("password", JsonVal.str p)])
      "password" = .ok (some (.str p)) := by
    rw [jsGetField, lookupJ]
    simp [lookupJ]
  rw [hE, hP]
  have ht : (!truthyO (some (JsonVal.str e)) || !truthyO (some (JsonVal.str p))) = false := by
    simp [truthyO, jsTruthy, he0, hp0]
  simp only [ht, Bool.false_eq_true, if_false]
  rw [if_neg he, if_neg hp]

/-- C5 witness at the client's default credentials. -/
theorem c5_json_success_witness :
    ¬jsTrim "user@example.com" = "" ∧ ¬jsTrim "password123" = "" ∧
    handleLogin (some "application/json") "\x7b\x7d"
        (some (.obj [("email", .str "user@example.com"),
          ("password", .str "password123")])) (some "tenant") =
      apiSuccess "user@example.com" (some "tenant") :=
  ⟨by decide, by decide,
    c5_json_success "user@example.com" "password123" "\x7b\x7d" (some "tenant")
      (by decide) (by decide)⟩

/-- C3: `parseRequestBody` dispatches on the lower-cased declared content
type: a type containing `application/json` is parsed as JSON; otherwise one
containing `application/x-www-form-urlencoded` or `multipart/form-data`, or
the empty declared type, goes to structured form parsing; anything else
throws "Unsupported content type" including the (lower-cased) offending
type, which `handleLogin` surfaces as a 400 JSON response. -/
theorem c3_content_type_dispatch (cth : Option String) (raw : String)
    (j : Option JsonVal) (seg : Option String) :
    (containsStr "application/json" (toLowerStr (cth.getD "")) = true →
      parseRequestBody cth raw j =
        (match j with
         | none => .error .malformedJson
         | some jv => .ok (.jsonV jv))) ∧
    (containsStr "application/json" (toLowerStr (cth.getD "")) = false →
      (containsStr "application/x-www-form-urlencoded" (toLowerStr (cth.getD "")) = true ∨
        containsStr "multipart/form-data" (toLowerStr (cth.getD "")) = true ∨
        toLowerStr (cth.getD "") = "") →
      parseRequestBody cth raw j =
        (match parseBodyHono cth raw with
         | .error e => .error e
         | .ok fields =>
           .ok (.formV (getFieldStr fields "email") (getFieldStr fields "password")))) ∧
    (containsStr "application/json" (toLowerStr (cth.getD "")) = false →
      containsStr "application/x-www-form-urlencoded" (toLowerStr (cth.getD "")) = false →
      containsStr "multipart/form-data" (toLowerStr (cth.getD "")) = false →
      ¬toLowerStr (cth.getD "") = "" →
      parseRequestBody cth raw j =
        .error (.unsupportedContentType (toLowerStr (cth.getD ""))) ∧
      handleLogin cth raw j seg =
        apiInvalid ("Unsupported content type: " ++ toLowerStr (cth.getD ""))) := by
  refine ⟨?_, ?_, ?_⟩
  · intro h1
    rw [parseRequestBody.eq_def]
    simp only [h1, if_true]
  · intro h1 h2
    rw [parseRequestBody.eq_def]
    simp only [h1, Bool.false_eq_true, if_false]
    have h3 : (containsStr "application/x-www-form-urlencoded" (toLowerStr (cth.getD "")) ||
        containsStr "multipart/form-data" (toLowerStr (cth.getD "")) ||
        decide (toLowerStr (cth.getD "") = "")) = true := by
      rcases h2 with h | h | h <;> simp [h]
    simp only [h3, if_true]
  · intro h1 h2 h3 h4
    have h5 : parseRequestBody cth raw j =
        .error (.unsupportedContentType (toLowerStr (cth.getD ""))) := by
      rw [parseRequestBody.eq_def]
      simp only [h1, h2, h3, Bool.false_eq_true, if_false]
      simp [h4]
    refine ⟨h5, ?_⟩
    rw [handleLogin, h5]
    rfl

/-- C3 witness: a JSON request and a `text/plain` request, the latter
rejected with a 400 naming the offending type. -/
theorem c3_content_type_dispatch_witness :
    (containsStr "application/json"
        (toLowerStr ((some "Application/JSON" : Option String).getD "")) = true ∧
      parseRequestBody (some "Application/JSON") "x" (some (.obj [])) =
        .ok (.jsonV (.obj []))) ∧
    (parseRequestBody (some "text/plain") "x" none =
        .error (.unsupportedContentType "text/plain") ∧
      handleLogin (some "text/plain") "x" none none =
        apiInvalid ("Unsupported content type: " ++ "text/plain")) := by
  refine ⟨⟨by decide, ?_⟩, ?_⟩
  · exact (c3_content_type_dispatch (some "Application/JSON") "x"
      (some (.obj [])) none).1 (by decide)
  · have h := (c3_content_type_dispatch (some "text/plain") "x" none none).2.2
      (by decide) (by decide) (by decide) (by decide)
    exact h

/-! ## Handler shape lemmas -/

theorem handleLoginJson_shape (jv : JsonVal) (seg : Option String) :
    ((handleLoginJson jv seg).status = 200 ∨ (handleLoginJson jv seg).status = 400) ∧
    ∃ jr, (handleLoginJson jv seg).body = .json jr := by
  unfold handleLoginJson
  cases h1 : jsGetField jv "email" with
  | error e => simp [apiInvalid]
  | ok eo =>
    cases h2 : jsGetField jv "password" with
    | error e => simp [apiInvalid]
    | ok po =>
      dsimp only
      by_cases h3 : (!truthyO eo || !truthyO po) = true
      · simp [h3, apiRequired]
      · rw [if_neg h3]
        split
        · split
          · simp [apiEmpty]
          · split
            · split
              · simp [apiEmpty]
              · simp [apiSuccess]
            · simp [apiInvalid]
        · simp [apiInvalid]

theorem handleLogin_shape (cth : Option String) (raw : String) (j : Option JsonVal)
    (seg : Option String) :
    ((handleLogin cth raw j seg).status = 200 ∨ (handleLogin cth raw j seg).status = 400) ∧
    ∃ jr, (handleLogin cth raw j seg).body = .json jr := by
  unfold handleLogin
  cases hP : parseRequestBody cth raw j with
  | error e => simp [apiInvalid]
  | ok bv =>
    cases bv with
    | jsonV jv =>
      dsimp only
      exact handleLoginJson_shape jv seg
    | formV em pw =>
      dsimp only
      split
      · simp [apiRequired]
      · split
        · simp [apiEmpty]
        · simp [apiSuccess]

theorem handleLogin_error (cth : Option String) (raw : String) (j : Option JsonVal)
    (seg : Option String) (e : AppErr) (h : parseRequestBody cth raw j = .error e) :
    handleLogin cth raw j seg = apiInvalid (errMessage e) := by
  unfold handleLogin
  rw [h]

theorem handleLogin_missing (cth : Option String) (raw : String) (j : Option JsonVal)
    (seg : Option String) (em pw : String)
    (h : parseRequestBody cth raw j = .ok (.formV em pw))
    (hmiss : em = "" ∨ pw = "") :
    handleLogin cth raw j seg = apiRequired := by
  unfold handleLogin
  rw [h]
  dsimp only
  have hc : (decide (em = "") || decide (pw = "")) = true := by
    rcases hmiss with h0 | h0 <;> simp [h0]
  simp [hc]

theorem handleFormSubmission_shape (r : FormReq) :
    ((handleFormSubmission r).status = 200 ∨ (handleFormSubmission r).status = 400) ∧
    ∃ s, (handleFormSubmission r).body = .html s := by
  unfold handleFormSubmission handleFormSubmissionWith
  cases hP : parseBodyHono r.contentType r.rawBody with
  | error e =>
    dsimp only
    split
    · simp
    · simp
  | ok fields =>
    dsimp only
    split
    · simp
    · split
      · simp
      · simp

theorem handleFormSubmission_error_400 (r : FormReq) (e : AppErr)
    (h : parseBodyHono r.contentType r.rawBody = .error e) :
    (handleFormSubmission r).status = 400 ∧
    ∃ s, (handleFormSubmission r).body = .html s := by
  unfold handleFormSubmission handleFormSubmissionWith
  rw [h]
  dsimp only
  split
  · simp
  · simp

theorem handleFormSubmission_missing (r : FormReq) (fields : List (String × String))
    (h : parseBodyHono r.contentType r.rawBody = .ok fields)
    (hdbg : (decide (r.queryDebug = some "1") || hasDebugToken r.rawBody) = false)
    (hmiss : getFieldStr fields "email" = "" ∨ getFieldStr fields "password" = "") :
    handleFormSubmission r = ⟨400, .html (missingFieldsPage (basePathOf r.pathSegment))⟩ := by
  unfold handleFormSubmission handleFormSubmissionWith
  rw [h]
  dsimp only
  have hd2 : ¬(decide (r.queryDebug = some "1") || hasDebugToken r.rawBody) = true := by
    rw [hdbg]; simp
  rw [if_neg hd2]
  have hc : (decide (getFieldStr fields "email" = "") ||
      decide (getFieldStr fields "password" = "")) = true := by
    rcases hmiss with h0 | h0 <;> simp [h0]
  simp [hc]

/-- C6: every error a create-account handler can see is caught at the
endpoint boundary: a `parseRequestBody` error (malformed JSON, unsupported
content type, body parse failure) becomes the 400 "Invalid request" JSON
response; missing required fields become the 400 required-fields responses;
and unconditionally both handlers are total, answer only 200 or 400, and
answer structured JSON (API route) respectively HTML (form route). -/
theorem c6_errors_contained :
    (∀ (cth : Option String) (raw : String) (j : Option JsonVal) (seg : Option String)
      (e : AppErr), parseRequestBody cth raw j = .error e →
      handleLogin cth raw j seg = apiInvalid (errMessage e)) ∧
    (∀ (cth : Option String) (raw : String) (j : Option JsonVal) (seg : Option String)
      (em pw : String), parseRequestBody cth raw j = .ok (.formV em pw) →
      em = "" ∨ pw = "" → handleLogin cth raw j seg = apiRequired) ∧
    (∀ (cth : Option String) (raw : String) (j : Option JsonVal) (seg : Option String),
      ((handleLogin cth raw j seg).status = 200 ∨ (handleLogin cth raw j seg).status = 400) ∧
      ∃ jr, (handleLogin cth raw j seg).body = .json jr) ∧
    (∀ (r : FormReq) (e : AppErr), parseBodyHono r.contentType r.rawBody = .error e →
      (handleFormSubmission r).status = 400 ∧
      ∃ s, (handleFormSubmission r).body = .html s) ∧
    (∀ (r : FormReq) (fields : List (String × String)),
      parseBodyHono r.contentType r.rawBody = .ok fields →
      (decide (r.queryDebug = some "1") || hasDebugToken r.rawBody) = false →
      getFieldStr fields "email" = "" ∨ getFieldStr fields "password" = "" →
      handleFormSubmission r = ⟨400, .html (missingFieldsPage (basePathOf r.pathSegment))⟩) ∧
    (∀ r : FormReq,
      ((handleFormSubmission r).status = 200 ∨ (handleFormSubmission r).status = 400) ∧
      ∃ s, (handleFormSubmission r).body = .html s) :=
  ⟨fun cth raw j seg e h => handleLogin_error cth raw j seg e h,
   fun cth raw j seg em pw h hm => handleLogin_missing cth raw j seg em pw h hm,
   fun cth raw j seg => handleLogin_shape cth raw j seg,
   fun r e h => handleFormSubmission_error_400 r e h,
   fun r fields h hd hm => handleFormSubmission_missing r fields h hd hm,
   fun r => handleFormSubmission_shape r⟩

/-- C6 witness: an unsupported content type on the API route, a
boundary-less multipart request and an empty body on the form route, all
converted to 400 structured responses. -/
theorem c6_errors_contained_witness :
    (parseRequestBody (some "text/plain") "x" none = .error (.unsupportedContentType "text/plain") ∧
      handleLogin (some "text/plain") "x" none none =
        apiInvalid (errMessage (.unsupportedContentType "text/plain"))) ∧
    (parseBodyHono (some "multipart/form-data") "x" = .error .bodyParseFailure ∧
      (handleFormSubmission ⟨"", "POST", "u", none, some "multipart/form-data",
          none, none, none, none, none, none, none, "x"⟩).status = 400) ∧
    handleFormSubmission ⟨"", "POST", "u", none,
        some "application/x-www-form-urlencoded", none, none, none, none,
        none, none, none, ""⟩ =
      ⟨400, .html (missingFieldsPage (basePathOf ""))⟩ := by
  refine ⟨⟨rfl, ?_⟩, ⟨rfl, ?_⟩, ?_⟩
  · exact c6_errors_contained.1 (some "text/plain") "x" none none
      (.unsupportedContentType "text/plain") rfl
  · exact (c6_errors_contained.2.2.2.1 ⟨"", "POST", "u", none, some "multipart/form-data",
      none, none, none, none, none, none, none, "x"⟩ .bodyParseFailure rfl).1
  · exact c6_errors_contained.2.2.2.2.1 ⟨"", "POST", "u", none,
      some "application/x-www-form-urlencoded", none, none, none, none,
      none, none, none, ""⟩ [] rfl rfl (Or.inl rfl)

/-! ## C2: blank credentials -/

theorem handleLogin_success_shape (cth : Option String) (raw : String) (j : Option JsonVal)
    (seg : Option String) (h200 : (handleLogin cth raw j seg).status = 200) :
    ∃ em pw, ¬jsTrim em = "" ∧ ¬jsTrim pw = "" ∧
      handleLogin cth raw j seg = apiSuccess em seg ∧
      (parseRequestBody cth raw j = .ok (.formV em pw) ∨
        ∃ jv, parseRequestBody cth raw j = .ok (.jsonV jv) ∧
          jsGetField jv "email" = .ok (some (.str em)) ∧
          jsGetField jv "password" = .ok (some (.str pw))) := by
  unfold handleLogin at h200 ⊢
  cases hP : parseRequestBody cth raw j with
  | error e => rw [hP] at h200; simp [apiInvalid] at h200
  | ok bv =>
    rw [hP] at h200
    cases bv with
    | formV em pw =>
      dsimp only at h200 ⊢
      by_cases h1 : (decide (em = "") || decide (pw = "")) = true
      · rw [if_pos h1] at h200; simp [apiRequired] at h200
      · rw [if_neg h1] at h200 ⊢
        by_cases h2 : (decide (jsTrim em = "") || decide (jsTrim pw = "")) = true
        · rw [if_pos h2] at h200; simp [apiEmpty] at h200
        · rw [if_neg h2] at h200 ⊢
          have h3 : ¬jsTrim em = "" ∧ ¬jsTrim pw = "" := by simpa using h2
          exact ⟨em, pw, h3.1, h3.2, rfl, Or.inl rfl⟩
    | jsonV jv =>
      dsimp only at h200 ⊢
      unfold handleLoginJson at h200 ⊢
      cases hE : jsGetField jv "email" with
      | error e => try rw [hE] at h200
                   simp [apiInvalid] at h200
      | ok eo =>
        try rw [hE] at h200
        try rw [hE]
        dsimp only at h200 ⊢
        cases hPW : jsGetField jv "password" with
        | error e => try rw [hPW] at h200
                     simp [apiInvalid] at h200
        | ok po =>
          try rw [hPW] at h200
          try rw [hPW]
          dsimp only at h200 ⊢
          by_cases h3 : (!truthyO eo || !truthyO po) = true
          · rw [if_pos h3] at h200; simp [apiRequired] at h200
          · rw [if_neg h3] at h200 ⊢
            cases eo with
            | none => simp [apiInvalid] at h200
            | some v =>
              cases v with
              | null => simp [apiInvalid] at h200
              | bool b => simp [apiInvalid] at h200
              | num n => simp [apiInvalid] at h200
              | arr a => simp [apiInvalid] at h200
              | obj o => simp [apiInvalid] at h200
              | str es =>
                dsimp only at h200 ⊢
                by_cases h4 : jsTrim es = ""
                · rw [if_pos h4] at h200; simp [apiEmpty] at h200
                · rw [if_neg h4] at h200 ⊢
                  cases po with
                  | none => simp [apiInvalid] at h200
                  | some w =>
                    cases w with
                    | null => simp [apiInvalid] at h200
                    | bool b => simp [apiInvalid] at h200
                    | num n => simp [apiInvalid] at h200
                    | arr a => simp [apiInvalid] at h200
                    | obj o => simp [apiInvalid] at h200
                    | str ps =>
                      dsimp only at h200 ⊢
                      by_cases h5 : jsTrim ps = ""
                      · rw [if_pos h5] at h200; simp [apiEmpty] at h200
                      · rw [if_neg h5] at h200 ⊢
                        exact ⟨es, ps, h4, h5, rfl, Or.inr ⟨jv, rfl, hE, hPW⟩⟩

/-- C2: the claim as stated is false on the code. The form-route handler
checks only string falsiness, never trimming: a whitespace-only email is
accepted and answered with the 200 success page. -/
theorem c2_whitespace_success_counterexample :
    jsTrim " " = "" ∧
    handleFormSubmission ⟨"", "POST", "u", none,
        some "application/x-www-form-urlencoded", none, none, none, none,
        none, none, none, "email= &password=x"⟩ =
      ⟨200, .html (successPage "" " ")⟩ :=
  ⟨rfl, rfl⟩

/-- C2 (amended): on the API routes a success is only ever produced from an
email and password that are non-blank after trimming (so blank ones get a
400-class failure); on the form routes only extracted values that are the
empty string are rejected — with debug off they get the 400 missing-fields
page — while whitespace-only values are accepted (see the
counterexample). -/
theorem c2_blank_rejection_amended :
    (∀ (cth : Option String) (raw : String) (j : Option JsonVal) (seg : Option String),
      (handleLogin cth raw j seg).status = 200 →
      ∃ em pw, ¬jsTrim em = "" ∧ ¬jsTrim pw = "" ∧
        handleLogin cth raw j seg = apiSuccess em seg ∧
        (parseRequestBody cth raw j = .ok (.formV em pw) ∨
          ∃ jv, parseRequestBody cth raw j = .ok (.jsonV jv) ∧
            jsGetField jv "email" = .ok (some (.str em)) ∧
            jsGetField jv "password" = .ok (some (.str pw)))) ∧
    (∀ (r : FormReq) (fields : List (String × String)),
      parseBodyHono r.contentType r.rawBody = .ok fields →
      (decide (r.queryDebug = some "1") || hasDebugToken r.rawBody) = false →
      getFieldStr fields "email" = "" ∨ getFieldStr fields "password" = "" →
      handleFormSubmission r = ⟨400, .html (missingFieldsPage (basePathOf r.pathSegment))⟩) :=
  ⟨fun cth raw j seg h => handleLogin_success_shape cth raw j seg h,
   fun r fields h hd hm => handleFormSubmission_missing r fields h hd hm⟩

/-- C2 amended, witnessed: a 200 API login forces non-blank trimmed
credentials, and an empty form body gets the missing-fields 400. -/
theorem c2_blank_rejection_amended_witness :
    (∃ em pw, ¬jsTrim em = "" ∧ ¬jsTrim pw = "" ∧
      handleLogin (some "application/json") "\x7b\x7d"
          (some (.obj [("email", .str "a"), ("password", .str "b")])) none =
        apiSuccess em none ∧
      (parseRequestBody (some "application/json") "\x7b\x7d"
          (some (.obj [("email", .str "a"), ("password", .str "b")])) =
        .ok (.formV em pw) ∨
        ∃ jv, parseRequestBody (some "application/json") "\x7b\x7d"
            (some (.obj [("email", .str "a"), ("password", .str "b")])) =
          .ok (.jsonV jv) ∧
          jsGetField jv "email" = .ok (some (.str em)) ∧
          jsGetField jv "password" = .ok (some (.str pw)))) ∧
    handleFormSubmission ⟨"", "POST", "u", none,
        some "application/x-www-form-urlencoded", none, none, none, none,
        none, none, none, "password=x"⟩ =
      ⟨400, .html (missingFieldsPage (basePathOf ""))⟩ :=
  ⟨c2_blank_rejection_amended.1 (some "application/json") "\x7b\x7d"
      (some (.obj [("email", .str "a"), ("password", .str "b")])) none rfl,
   c2_blank_rejection_amended.2 ⟨"", "POST", "u", none,
      some "application/x-www-form-urlencoded", none, none, none, none,
      none, none, none, "password=x"⟩ [("password", "x")] rfl rfl (Or.inl rfl)⟩

/-! ## C7 and C9: debug mode -/

set_option maxRecDepth 400000 in
/-- C7: the claim as stated is false on the code. Body-requested debug mode
is detected only by the URL-encoded-shaped token `debug=1` in the raw body
text; in a `multipart/form-data` body the `debug` field is parsed (value
`"1"`), yet the raw text never matches, so the handler serves the normal
success page instead of the debug page. -/
theorem c7_multipart_debug_counterexample :
    parseBodyHono (some "multipart/form-data; boundary=X")
        (mpEncode "X" [("email", "x@y.z"), ("password", "pw"), ("debug", "1")]) =
      .ok [("email", "x@y.z"), ("password", "pw"), ("debug", "1")] ∧
    getFieldStr [("email", "x@y.z"), ("password", "pw"), ("debug", "1")] "debug" = "1" ∧
    hasDebugToken (mpEncode "X" [("email", "x@y.z"), ("password", "pw"), ("debug", "1")]) =
      false ∧
    handleFormSubmission ⟨"", "POST", "u", none,
        some "multipart/form-data; boundary=X", none, none, none, none,
        none, none, none,
        mpEncode "X" [("email", "x@y.z"), ("password", "pw"), ("debug", "1")]⟩ =
      ⟨200, .html (successPage "" "x@y.z")⟩ :=
  ⟨rfl, rfl, rfl, rfl⟩

/-- C7 (amended): the debug page is served exactly when `debug=1` is in the
query string or the raw body text contains the `&`-delimited token `debug=1`
(as URL-encoded bodies have it): then a successfully parsed request gets the
200 debug page and a failed parse gets the 400 parse-error debug page. A
debug field reaching the handler in any other encoding (multipart) does not
trigger debug mode. -/
theorem c7_debug_request_amended (r : FormReq)
    (h : r.queryDebug = some "1" ∨ hasDebugToken r.rawBody = true) :
    (∀ fields, parseBodyHono r.contentType r.rawBody = .ok fields →
      handleFormSubmission r =
        ⟨200, .html (debugPage (basePathOf r.pathSegment) (mkDebugInfo r fields))⟩) ∧
    (∀ e, parseBodyHono r.contentType r.rawBody = .error e →
      handleFormSubmission r =
        ⟨400, .html (debugErrorPage (basePathOf r.pathSegment) (mkDebugErrInfo r e))⟩) := by
  have hd : (decide (r.queryDebug = some "1") || hasDebugToken r.rawBody) = true := by
    rcases h with h0 | h0 <;> simp [h0]
  exact ⟨fun fields hp => handleFormSubmission_debug_ok r fields hp hd,
    fun e hp => handleFormSubmission_debug_err r e hp hd⟩

/-- C7 amended, witnessed: a query-string debug request with a parsed body,
and one whose multipart parse fails. -/
theorem c7_debug_request_amended_witness :
    ((some "1" : Option String) = some "1" ∨
      hasDebugToken "email=a&password=b" = true) ∧
    handleFormSubmission ⟨"", "POST", "u", some "1",
        some "application/x-www-form-urlencoded", none, none, none, none,
        none, none, none, "email=a&password=b"⟩ =
      ⟨200, .html (debugPage (basePathOf "")
        (mkDebugInfo ⟨"", "POST", "u", some "1",
          some "application/x-www-form-urlencoded", none, none, none, none,
          none, none, none, "email=a&password=b"⟩
          [("email", "a"), ("password", "b")]))⟩ ∧
    handleFormSubmission ⟨"", "POST", "u", some "1",
        some "multipart/form-data", none, none, none, none,
        none, none, none, "x"⟩ =
      ⟨400, .html (debugErrorPage (basePathOf "")
        (mkDebugErrInfo ⟨"", "POST", "u", some "1",
          some "multipart/form-data", none, none, none, none,
          none, none, none, "x"⟩ .bodyParseFailure))⟩ :=
  ⟨Or.inl rfl,
   (c7_debug_request_amended ⟨"", "POST", "u", some "1",
      some "application/x-www-form-urlencoded", none, none, none, none,
      none, none, none, "email=a&password=b"⟩ (Or.inl rfl)).1
     [("email", "a"), ("password", "b")] rfl,
   (c7_debug_request_amended ⟨"", "POST", "u", some "1",
      some "multipart/form-data", none, none, none, none,
      none, none, none, "x"⟩ (Or.inl rfl)).2 .bodyParseFailure rfl⟩

/-- C9: the debug branch is evaluated before the missing-field check: a
form-route request whose body parses and which requests debug mode gets the
200 debug page even when the extracted email or password is empty, so the
missing-field check is unreachable in debug mode. -/
theorem c9_debug_precedes_validation (r : FormReq) (fields : List (String × String))
    (hp : parseBodyHono r.contentType r.rawBody = .ok fields)
    (hd : r.queryDebug = some "1" ∨ hasDebugToken r.rawBody = true) :
    handleFormSubmission r =
      ⟨200, .html (debugPage (basePathOf r.pathSegment) (mkDebugInfo r fields))⟩ := by
  apply handleFormSubmission_debug_ok r fields hp
  rcases hd with h0 | h0 <;> simp [h0]

/-- C9, witnessed at a body that carries only `debug=1`: email and password
are both absent, the parse succeeds, and the handler still answers 200 with
the debug page. -/
theorem c9_debug_precedes_validation_witness :
    parseBodyHono (some "application/x-www-form-urlencoded") "debug=1" =
      .ok [("debug", "1")] ∧
    getFieldStr [("debug", "1")] "email" = "" ∧
    getFieldStr [("debug", "1")] "password" = "" ∧
    handleFormSubmission ⟨"", "POST", "u", none,
        some "application/x-www-form-urlencoded", none, none, none, none,
        none, none, none, "debug=1"⟩ =
      ⟨200, .html (debugPage (basePathOf "")
        (mkDebugInfo ⟨"", "POST", "u", none,
          some "application/x-www-form-urlencoded", none, none, none, none,
          none, none, none, "debug=1"⟩ [("debug", "1")]))⟩ :=
  ⟨rfl, rfl, rfl,
   c9_debug_precedes_validation ⟨"", "POST", "u", none,
      some "application/x-www-form-urlencoded", none, none, none, none,
      none, none, none, "debug=1"⟩ [("debug", "1")] rfl (Or.inr rfl)⟩

/-! ## C8: the URL-encoded round trip -/

/-- C8: round trip. Encoding any two byte strings the way the browser
serialises the client's `email`/`password` form submission and decoding the
resulting `application/x-www-form-urlencoded` body with the server side's
parser reproduces both values exactly — for every pair of values, with no
escaping loss. -/
theorem c8_urlencoded_round_trip (e p : List Byte) :
    getFieldB (toBodyDataB (parseUrlencodedBytes (clientFormBody e p)))
        (strBytes "email") = some e ∧
    getFieldB (toBodyDataB (parseUrlencodedBytes (clientFormBody e p)))
        (strBytes "password") = some p := by
  have hA38 : occursIn [byteOf 38] (strBytes "email=" ++ serializeComponent e) = false := by
    apply occursIn_singleton_false
    intro hm
    rcases List.mem_append.mp hm with h1 | h2
    · exact absurd h1 (by decide)
    · exact serialize_no38 e h2
  have hR38 : occursIn [byteOf 38] (strBytes "password=" ++ serializeComponent p) = false := by
    apply occursIn_singleton_false
    intro hm
    rcases List.mem_append.mp hm with h1 | h2
    · exact absurd h1 (by decide)
    · exact serialize_no38 p h2
  have hsplit : splitOnSep [byteOf 38] (clientFormBody e p) =
      [strBytes "email=" ++ serializeComponent e,
        strBytes "password=" ++ serializeComponent p] := by
    have hb : clientFormBody e p =
        (strBytes "email=" ++ serializeComponent e) ++
          ([byteOf 38] ++ (strBytes "password=" ++ serializeComponent p)) := by
      rw [clientFormBody]
      simp
    rw [hb]
    rw [splitOnSep_append [byteOf 38] (strBytes "email=" ++ serializeComponent e)
      (strBytes "password=" ++ serializeComponent p) (by decide) (by simpa using hA38)]
    rw [splitOnSep_last [byteOf 38] (strBytes "password=" ++ serializeComponent p)
      (by decide) hR38]
  have hfA : findSplit [byteOf 61] (strBytes "email=" ++ serializeComponent e) =
      some (strBytes "email", serializeComponent e) := by
    rw [show strBytes "email=" = strBytes "email" ++ [byteOf 61] from by decide,
      List.append_assoc]
    exact findSplit_append [byteOf 61] (strBytes "email") (serializeComponent e)
      (by decide) (by decide)
  have hfR : findSplit [byteOf 61] (strBytes "password=" ++ serializeComponent p) =
      some (strBytes "password", serializeComponent p) := by
    rw [show strBytes "password=" = strBytes "password" ++ [byteOf 61] from by decide,
      List.append_assoc]
    exact findSplit_append [byteOf 61] (strBytes "password") (serializeComponent p)
      (by decide) (by decide)
  have hdA : decodePairB (strBytes "email=" ++ serializeComponent e) =
      (strBytes "email", e) := by
    unfold decodePairB
    rw [hfA]
    dsimp only
    rw [decode_serialize, show decodeBytes (strBytes "email") = strBytes "email" from by decide]
  have hdR : decodePairB (strBytes "password=" ++ serializeComponent p) =
      (strBytes "password", p) := by
    unfold decodePairB
    rw [hfR]
    dsimp only
    rw [decode_serialize,
      show decodeBytes (strBytes "password") = strBytes "password" from by decide]
  have hne1 : (strBytes "email=" ++ serializeComponent e).isEmpty = false := by
    rw [show strBytes "email=" = byteOf 101 :: strBytes "mail=" from by decide]
    rfl
  have hne2 : (strBytes "password=" ++ serializeComponent p).isEmpty = false := by
    rw [show strBytes "password=" = byteOf 112 :: strBytes "assword=" from by decide]
    rfl
  have hparse : parseUrlencodedBytes (clientFormBody e p) =
      [(strBytes "email", e), (strBytes "password", p)] := by
    rw [parseUrlencodedBytes, hsplit]
    simp [List.foldl, hne1, hne2, hdA, hdR]
  have hk2 : ¬strBytes "email" = strBytes "password" := by decide
  rw [hparse]
  constructor
  · simp [toBodyDataB, upsertB, getFieldB, hk2]
  · simp [toBodyDataB, upsertB, getFieldB, hk2]

/-! ## C1 machinery: the tolerant multipart fallback on encoded bodies -/

theorem splitOnSep_self_head {α : Type} [DecidableEq α] (sep rest : List α)
    (hsep : sep ≠ []) :
    splitOnSep sep (sep ++ rest) = [] :: splitOnSep sep rest := by
  have h := splitOnSep_append sep [] rest hsep
    (occursIn_false_short (by
      have := List.length_pos.mpr hsep
      simp [List.length_dropLast]
      omega))
  simpa using h

theorem occursIn_of_ex {α : Type} [DecidableEq α] (p x y l : List α)
    (h : l = x ++ (p ++ y)) : occursIn p l = true := by
  subst h
  induction x with
  | nil => exact occursIn_of_starts (startsWithL_refl_append p y)
  | cons c cs ih =>
    show occursIn p (c :: (cs ++ (p ++ y))) = true
    rw [occursIn, ih]
    simp

theorem takeWhile_all_append {α : Type} (p : α → Bool) (xs ys : List α)
    (h : ∀ x ∈ xs, p x = true) :
    (xs ++ ys).takeWhile p = xs ++ ys.takeWhile p := by
  induction xs with
  | nil => rfl
  | cons c cs ih =>
    show (c :: (cs ++ ys)).takeWhile p = _
    rw [List.takeWhile_cons, h c (List.mem_cons_self c cs)]
    rw [ih (fun x hx => h x (List.mem_cons_of_mem c hx))]
    rfl

theorem trimRightL_snoc_ws (l : List Char) (c : Char) (h : wsB c = true) :
    trimRightL (l ++ [c]) = trimRightL l := by
  simp [trimRightL, List.dropWhile, h]

theorem trimRightL_cons_ne_nil (c : Char) (X : List Char) (hc : wsB c = false) :
    ¬trimRightL (c :: X) = [] := by
  intro h
  rw [trimRightL, List.reverse_eq_nil_iff] at h
  have hall := List.dropWhile_eq_nil_iff.mp h
  have hmem : c ∈ (c :: X).reverse := by simp
  have := hall c hmem
  rw [hc] at this
  cases this

theorem dropWhile_decomp {α : Type} (p : α → Bool) (l : List α) :
    ∃ t, t ++ l.dropWhile p = l := by
  induction l with
  | nil => exact ⟨[], rfl⟩
  | cons c cs ih =>
    by_cases hp : p c = true
    · obtain ⟨t, ht⟩ := ih
      refine ⟨c :: t, ?_⟩
      rw [List.dropWhile_cons, hp]
      simpa using ht
    · refine ⟨[], ?_⟩
      rw [List.dropWhile_cons]
      simp [hp]

theorem trimRightL_cons_shape (c : Char) (X : List Char) :
    trimRightL (c :: X) = [] ∨ ∃ t, trimRightL (c :: X) = c :: t := by
  rw [trimRightL]
  cases hD : ((c :: X).reverse).dropWhile wsB with
  | nil => exact Or.inl rfl
  | cons d ds =>
    obtain ⟨t0, ht0⟩ := dropWhile_decomp wsB ((c :: X).reverse)
    rw [hD] at ht0
    have hrev : (d :: ds).reverse ++ t0.reverse = c :: X := by
      have := congrArg List.reverse ht0
      simpa [List.reverse_append] using this
    cases hq : (d :: ds).reverse with
    | nil => simp at hq
    | cons q qs =>
      rw [hq] at hrev
      have hqc : q = c := by
        have := congrArg (fun l => l.headD c) hrev
        simpa using this
      exact Or.inr ⟨qs, by rw [hqc]⟩

theorem trimBoth_crlfC (Y : List Char) :
    trimBothL ('\r' :: '\n' :: 'C' :: Y) = trimRightL ('C' :: Y) := by
  have h1 : trimLeftL ('\r' :: '\n' :: 'C' :: Y) = 'C' :: Y := by
    simp [trimLeftL, List.dropWhile, wsB]
  rw [trimBothL, h1]

theorem stripOneSuffix_append {α : Type} [DecidableEq α] (s x : List α) :
    stripOneSuffix s (x ++ s) = x := by
  rw [stripOneSuffix]
  have hs : startsWithL s.reverse (x ++ s).reverse = true := by
    rw [List.reverse_append]
    exact startsWithL_refl_append s.reverse x.reverse
  rw [if_pos hs]
  have hlen : (x ++ s).length - s.length = x.length + 0 := by
    simp
  rw [hlen, takeApp]
  simp

theorem lookupStr_upsert_same (m : List (String × String)) (k v : String) :
    lookupStr (upsert m k v) k = some v := by
  induction m with
  | nil => simp [upsert, lookupStr]
  | cons kv t ih =>
    obtain ⟨k1, v1⟩ := kv
    rw [upsert]
    by_cases h : k1 = k
    · rw [if_pos h, lookupStr, if_pos rfl]
    · rw [if_neg h, lookupStr, if_neg h, ih]

theorem lookupStr_upsert_other (m : List (String × String)) (k k2 v : String)
    (h : ¬k = k2) :
    lookupStr (upsert m k v) k2 = lookupStr m k2 := by
  induction m with
  | nil => simp [upsert, lookupStr, h]
  | cons kv t ih =>
    obtain ⟨k1, v1⟩ := kv
    rw [upsert]
    by_cases h1 : k1 = k
    · rw [if_pos h1, lookupStr, if_neg h, lookupStr, h1, if_neg h]
    · rw [if_neg h1, lookupStr, lookupStr, ih]

theorem parseSegment_nil : parseSegment [] = none := rfl

theorem parseSegment_dashes : parseSegment ['-', '-'] = none := rfl

theorem parseSegment_email (v : String) :
    parseSegment (mpChunk "email" v) = some ("email", v) := by
  have hc : mpChunk "email" v =
      ("\r\nContent-Disposition: form-data; name=\"email\"").data ++
        (['\r', '\n', '\r', '\n'] ++ (v.data ++ ['\r', '\n'])) := by
    simp [mpChunk]
  have hY : mpChunk "email" v =
      '\r' :: '\n' :: 'C' ::
        (("ontent-Disposition: form-data; name=\"email\"").data ++
          (['\r', '\n', '\r', '\n'] ++ (v.data ++ ['\r', '\n']))) := by
    rw [hc]
    rfl
  have htb : trimBothL (mpChunk "email" v) =
      trimRightL ('C' :: (("ontent-Disposition: form-data; name=\"email\"").data ++
        (['\r', '\n', '\r', '\n'] ++ (v.data ++ ['\r', '\n'])))) := by
    rw [hY]
    exact trimBoth_crlfC _
  have hne := trimRightL_cons_ne_nil 'C'
    (("ontent-Disposition: form-data; name=\"email\"").data ++
      (['\r', '\n', '\r', '\n'] ++ (v.data ++ ['\r', '\n']))) (by decide)
  have hcond : ¬(((trimBothL (mpChunk "email" v)).isEmpty ||
      decide (trimBothL (mpChunk "email" v) = ['-', '-'])) = true) := by
    rw [htb]
    rcases trimRightL_cons_shape 'C'
      (("ontent-Disposition: form-data; name=\"email\"").data ++
        (['\r', '\n', '\r', '\n'] ++ (v.data ++ ['\r', '\n']))) with h0 | ⟨t, ht⟩
    · exact absurd h0 hne
    · rw [ht]
      simp
  rw [parseSegment]
  rw [if_neg hcond, hc]
  rw [findSplit_append (['\r', '\n', '\r', '\n'])
    (("\r\nContent-Disposition: form-data; name=\"email\"").data)
    (v.data ++ ['\r', '\n']) (by decide) (by decide)]
  dsimp only
  rw [show findSplit (("name=\"").data)
      (("\r\nContent-Disposition: form-data; name=\"email\"").data) =
      some ((("\r\nContent-Disposition: form-data; ").data), ("email\"").data)
    from by decide]
  dsimp only
  rw [stripOneSuffix_append ['\r', '\n'] v.data]
  rfl

theorem parseSegment_password (v : String) :
    parseSegment (mpChunk "password" v) = some ("password", v) := by
  have hc : mpChunk "password" v =
      ("\r\nContent-Disposition: form-data; name=\"password\"").data ++
        (['\r', '\n', '\r', '\n'] ++ (v.data ++ ['\r', '\n'])) := by
    simp [mpChunk]
  have hY : mpChunk "password" v =
      '\r' :: '\n' :: 'C' ::
        (("ontent-Disposition: form-data; name=\"password\"").data ++
          (['\r', '\n', '\r', '\n'] ++ (v.data ++ ['\r', '\n']))) := by
    rw [hc]
    rfl
  have htb : trimBothL (mpChunk "password" v) =
      trimRightL ('C' :: (("ontent-Disposition: form-data; name=\"password\"").data ++
        (['\r', '\n', '\r', '\n'] ++ (v.data ++ ['\r', '\n'])))) := by
    rw [hY]
    exact trimBoth_crlfC _
  have hne := trimRightL_cons_ne_nil 'C'
    (("ontent-Disposition: form-data; name=\"password\"").data ++
      (['\r', '\n', '\r', '\n'] ++ (v.data ++ ['\r', '\n']))) (by decide)
  have hcond : ¬(((trimBothL (mpChunk "password" v)).isEmpty ||
      decide (trimBothL (mpChunk "password" v) = ['-', '-'])) = true) := by
    rw [htb]
    rcases trimRightL_cons_shape 'C'
      (("ontent-Disposition: form-data; name=\"password\"").data ++
        (['\r', '\n', '\r', '\n'] ++ (v.data ++ ['\r', '\n']))) with h0 | ⟨t, ht⟩
    · exact absurd h0 hne
    · rw [ht]
      simp
  rw [parseSegment]
  rw [if_neg hcond, hc]
  rw [findSplit_append (['\r', '\n', '\r', '\n'])
    (("\r\nContent-Disposition: form-data; name=\"password\"").data)
    (v.data ++ ['\r', '\n']) (by decide) (by decide)]
  dsimp only
  rw [show findSplit (("name=\"").data)
      (("\r\nContent-Disposition: form-data; name=\"password\"").data) =
      some ((("\r\nContent-Disposition: form-data; ").data), ("password\"").data)
    from by decide]
  dsimp only
  rw [stripOneSuffix_append ['\r', '\n'] v.data]
  rfl

theorem mpEncode_two_data (b n1 v1 n2 v2 : String) :
    (mpEncode b [(n1, v1), (n2, v2)]).data =
      mpMark b ++ (mpChunk n1 v1 ++ (mpMark b ++ (mpChunk n2 v2 ++
        (mpMark b ++ ['-', '-'])))) := by
  simp [mpEncode, List.append_assoc]

theorem mpMark_ne_nil (b : String) : mpMark b ≠ [] := by
  simp [mpMark]

theorem split_mpEncode (b e p : String) (hbd : b.data ≠ [])
    (h1 : occursIn (mpMark b) (mpChunk "email" e ++ (mpMark b).dropLast) = false)
    (h2 : occursIn (mpMark b) (mpChunk "password" p ++ (mpMark b).dropLast) = false) :
    splitOnSep (mpMark b) (mpEncode b [("email", e), ("password", p)]).data =
      [[], mpChunk "email" e, mpChunk "password" p, ['-', '-']] := by
  rw [mpEncode_two_data]
  rw [splitOnSep_self_head (mpMark b)
    (mpChunk "email" e ++ (mpMark b ++ (mpChunk "password" p ++ (mpMark b ++ ['-', '-']))))
    (mpMark_ne_nil b)]
  rw [splitOnSep_append (mpMark b) (mpChunk "email" e)
    (mpChunk "password" p ++ (mpMark b ++ ['-', '-'])) (mpMark_ne_nil b) h1]
  rw [splitOnSep_append (mpMark b) (mpChunk "password" p)
    ['-', '-'] (mpMark_ne_nil b) h2]
  have hshort : (['-', '-'] : List Char).length < (mpMark b).length := by
    have h0 := List.length_pos.mpr hbd
    simp only [mpMark, List.length_cons, List.length_nil]
    omega
  rw [splitOnSep_last (mpMark b) ['-', '-'] (mpMark_ne_nil b)
    (occursIn_false_short hshort)]

theorem fieldsOfSegments_two (e p : String) :
    fieldsOfSegments [[], mpChunk "email" e, mpChunk "password" p, ['-', '-']] =
      [("email", e), ("password", p)] := by
  have hk : ¬("email" : String) = "password" := by decide
  simp [fieldsOfSegments, parseSegment_nil, parseSegment_dashes, parseSegment_email,
    parseSegment_password, upsert, hk]

theorem sniffBoundary_encoded (b raw : String) (tail : List Char)
    (hraw : raw.data = mpMark b ++ ('\r' :: '\n' :: tail))
    (hbd : b.data ≠ []) (hnl : '\n' ∉ b.data)
    (htr : trimRightL (mpMark b) = mpMark b) :
    sniffBoundary raw = some b := by
  have hall : ∀ x ∈ mpMark b, (!(x = '\n') : Bool) = true := by
    intro x hx
    rcases List.mem_cons.mp hx with h0 | hx2
    · simp [h0]
    · rcases List.mem_cons.mp hx2 with h0 | hx3
      · simp [h0]
      · have h4 : ¬x = '\n' := fun he => hnl (he ▸ hx3)
        simp [h4]
  have hfl : sniffFirstLine raw = mpMark b := by
    rw [sniffFirstLine, hraw]
    rw [takeWhile_all_append _ (mpMark b) _ hall]
    rw [show ('\r' :: '\n' :: tail).takeWhile (fun c => !(c = '\n')) = ['\r'] from by
      simp [List.takeWhile]]
    rw [trimRightL_snoc_ws (mpMark b) '\r' (by decide), htr]
  rw [sniffBoundary, hfl]
  have hsw : startsWithL ['-', '-'] (mpMark b) = true := by
    simp [mpMark, startsWithL]
  have hlen : decide (2 < (mpMark b).length) = true := by
    apply decide_eq_true
    have h0 := List.length_pos.mpr hbd
    simp only [mpMark, List.length_cons]
    omega
  rw [hsw, hlen]
  rfl

theorem compliant_mpEncode (b e p : String) (hbd : b.data ≠ [])
    (h1 : occursIn (mpMark b) (mpChunk "email" e ++ (mpMark b).dropLast) = false)
    (h2 : occursIn (mpMark b) (mpChunk "password" p ++ (mpMark b).dropLast) = false) :
    compliantMultipartParse b (mpEncode b [("email", e), ("password", p)]) =
      some [("email", e), ("password", p)] := by
  rw [compliantMultipartParse]
  have hocc : occursIn (mpMark b) (mpEncode b [("email", e), ("password", p)]).data = true := by
    rw [mpEncode_two_data]
    exact occursIn_of_ex (mpMark b) []
      (mpChunk "email" e ++ (mpMark b ++ (mpChunk "password" p ++ (mpMark b ++ ['-', '-']))))
      (mpMark b ++ (mpChunk "email" e ++ (mpMark b ++ (mpChunk "password" p ++
        (mpMark b ++ ['-', '-'])))))
      (by simp)
  rw [if_pos hocc, split_mpEncode b e p hbd h1 h2, fieldsOfSegments_two]

theorem recoverFields_mpEncode (b e p : String) (hbd : b.data ≠ [])
    (hnl : '\n' ∉ b.data) (htr : trimRightL (mpMark b) = mpMark b)
    (h1 : occursIn (mpMark b) (mpChunk "email" e ++ (mpMark b).dropLast) = false)
    (h2 : occursIn (mpMark b) (mpChunk "password" p ++ (mpMark b).dropLast) = false) :
    recoverFields (mpEncode b [("email", e), ("password", p)]) =
      [("email", e), ("password", p)] := by
  have hdata : (mpEncode b [("email", e), ("password", p)]).data =
      mpMark b ++ ('\r' :: '\n' ::
        (("Content-Disposition: form-data; name=\"email\"").data ++
          (['\r', '\n', '\r', '\n'] ++ (e.data ++ (['\r', '\n'] ++
            (mpMark b ++ (mpChunk "password" p ++ (mpMark b ++ ['-', '-'])))))))) := by
    rw [mpEncode_two_data]
    simp [mpChunk]
  rw [recoverFields]
  rw [sniffBoundary_encoded b (mpEncode b [("email", e), ("password", p)]) _ hdata hbd hnl htr]
  dsimp only
  rw [split_mpEncode b e p hbd h1 h2, fieldsOfSegments_two]

/-- C1 (spec-modelled tolerant fallback): a form-route POST whose body is the
canonical multipart framing of `email`/`password` fields with boundary `b`,
but whose declared Content-Type is `application/x-www-form-urlencoded`,
absent, or `multipart/form-data` with a non-matching boundary, is recovered
by the spec's fallback: the recovered fields equal what the
standards-compliant multipart parser yields from the body's actual boundary,
and the handler built on the tolerant parse answers 200 success echoing the
email. The `occursIn`/`trimRightL` hypotheses are the spec's own proviso
that the boundary marker frames the body and occurs nowhere inside the
parts. -/
theorem c1_tolerant_multipart_recovery
    (b e p : String) (r : FormReq)
    (hbd : b.data ≠ [])
    (hnl : '\n' ∉ b.data)
    (htr : trimRightL (mpMark b) = mpMark b)
    (h1 : occursIn (mpMark b) (mpChunk "email" e ++ (mpMark b).dropLast) = false)
    (h2 : occursIn (mpMark b) (mpChunk "password" p ++ (mpMark b).dropLast) = false)
    (hraw : r.rawBody = mpEncode b [("email", e), ("password", p)])
    (hct : r.contentType = some "application/x-www-form-urlencoded" ∨
      r.contentType = none ∨
      (∃ ct2, r.contentType = some ct2 ∧
        startsWithL ("multipart/form-data").data ct2.data = true ∧
        (getBoundary ct2 = none ∨
          ∃ bd, getBoundary ct2 = some bd ∧
            occursIn (mpMark bd) r.rawBody.data = false)))
    (hq : ¬r.queryDebug = some "1")
    (hdt : hasDebugToken r.rawBody = false)
    (he : ¬e = "") (hp : ¬p = "") :
    compliantMultipartParse b r.rawBody = some [("email", e), ("password", p)] ∧
    recoverFields r.rawBody = [("email", e), ("password", p)] ∧
    (∃ fields, tolerantParseBody r.contentType r.rawBody = .ok fields ∧
      getFieldStr fields "email" = e ∧ getFieldStr fields "password" = p) ∧
    handleFormSubmissionTolerant r =
      ⟨200, .html (successPage (basePathOf r.pathSegment) e)⟩ := by
  have hcomp : compliantMultipartParse b r.rawBody = some [("email", e), ("password", p)] := by
    rw [hraw]
    exact compliant_mpEncode b e p hbd h1 h2
  have hrec : recoverFields r.rawBody = [("email", e), ("password", p)] := by
    rw [hraw]
    exact recoverFields_mpEncode b e p hbd hnl htr h1 h2
  have hfr : mpFramed r.rawBody = true := by
    rw [hraw, mpFramed]
    have hsw : startsWithL ['-', '-']
        (mpEncode b [("email", e), ("password", p)]).data = true := by
      rw [mpEncode_two_data]
      simp [mpMark, startsWithL]
    have hoc : occursIn (("Content-Disposition: form-data;").data)
        (mpEncode b [("email", e), ("password", p)]).data = true := by
      apply occursIn_of_ex (("Content-Disposition: form-data;").data)
        (mpMark b ++ ['\r', '\n'])
        ((" name=\"email\"").data ++ (['\r', '\n', '\r', '\n'] ++ (e.data ++ (['\r', '\n'] ++
          (mpMark b ++ (mpChunk "password" p ++ (mpMark b ++ ['-', '-'])))))))
      rw [mpEncode_two_data]
      simp [mpChunk]
    rw [hsw, hoc]
    rfl
  have hkE : ¬("password" : String) = "email" := by decide
  have hfields : ∃ fields, tolerantParseBody r.contentType r.rawBody = .ok fields ∧
      lookupStr fields "email" = some e ∧ lookupStr fields "password" = some p := by
    rcases hct with hA | hB | ⟨ct2, hc2, hm2, hbnd⟩
    · have hPB : parseBodyHono r.contentType r.rawBody =
          .ok (toBodyData (parseUrlencoded r.rawBody)) := by
        rw [hA]
        rfl
      refine ⟨mergeOverride [("email", e), ("password", p)]
        (toBodyData (parseUrlencoded r.rawBody)), ?_, ?_, ?_⟩
      · rw [tolerantParseBody, hPB]
        dsimp only
        rw [if_pos hfr, hrec]
      · simp only [mergeOverride, List.foldl]
        rw [lookupStr_upsert_other _ "password" "email" p hkE, lookupStr_upsert_same]
      · simp only [mergeOverride, List.foldl]
        rw [lookupStr_upsert_same]
    · have hPB : parseBodyHono r.contentType r.rawBody = .ok [] := by
        rw [hB]
        rfl
      refine ⟨mergeOverride [("email", e), ("password", p)] [], ?_, ?_, ?_⟩
      · rw [tolerantParseBody, hPB]
        dsimp only
        rw [if_pos hfr, hrec]
      · simp only [mergeOverride, List.foldl]
        rw [lookupStr_upsert_other _ "password" "email" p hkE, lookupStr_upsert_same]
      · simp only [mergeOverride, List.foldl]
        rw [lookupStr_upsert_same]
    · have hPB : parseBodyHono r.contentType r.rawBody = .error .bodyParseFailure := by
        rw [hc2]
        rw [parseBodyHono]
        rw [if_pos hm2]
        rcases hbnd with hb1 | ⟨bd, hbd2, hnocc⟩
        · rw [hb1]
        · rw [hbd2]
          dsimp only
          have hcm : compliantMultipartParse bd r.rawBody = none := by
            rw [compliantMultipartParse, if_neg (by rw [hnocc]; simp)]
          rw [hcm]
      refine ⟨[("email", e), ("password", p)], ?_, ?_, ?_⟩
      · rw [tolerantParseBody, hPB]
        dsimp only
        rw [if_pos hfr, hrec]
      · simp [lookupStr]
      · simp [lookupStr, hkE]
  obtain ⟨fields, hTP, hle, hlp⟩ := hfields
  have hge : getFieldStr fields "email" = e := by
    rw [getFieldStr, hle]
    rfl
  have hgp : getFieldStr fields "password" = p := by
    rw [getFieldStr, hlp]
    rfl
  have hdebug : (decide (r.queryDebug = some "1") || hasDebugToken r.rawBody) = false := by
    simp [hq, hdt]
  have hhandler : handleFormSubmissionTolerant r =
      ⟨200, .html (successPage (basePathOf r.pathSegment) e)⟩ := by
    unfold handleFormSubmissionTolerant handleFormSubmissionWith
    rw [hTP]
    dsimp only
    rw [if_neg (by rw [hdebug]; simp)]
    have hmiss : (decide (getFieldStr fields "email" = "") ||
        decide (getFieldStr fields "password" = "")) = false := by
      rw [hge, hgp]
      simp [he, hp]
    rw [if_neg (by rw [hmiss]; simp), hge]
  exact ⟨hcomp, hrec, ⟨fields, hTP, hge, hgp⟩, hhandler⟩

set_option maxRecDepth 1000000 in
/-- C1, witnessed at the spec's concrete scenario: the multipart body with
boundary `B` carrying `email=a@b.com` and `password=secret`, sent with
Content-Type `application/x-www-form-urlencoded`, is recovered and answered
with the 200 success page echoing `a@b.com`. -/
theorem c1_tolerant_multipart_recovery_witness :
    (("B" : String).data ≠ [] ∧ '\n' ∉ ("B" : String).data ∧
      trimRightL (mpMark "B") = mpMark "B" ∧
      occursIn (mpMark "B") (mpChunk "email" "a@b.com" ++ (mpMark "B").dropLast) = false ∧
      occursIn (mpMark "B") (mpChunk "password" "secret" ++ (mpMark "B").dropLast) = false ∧
      hasDebugToken (mpEncode "B" [("email", "a@b.com"), ("password", "secret")]) = false) ∧
    compliantMultipartParse "B" (mpEncode "B" [("email", "a@b.com"), ("password", "secret")]) =
      some [("email", "a@b.com"), ("password", "secret")] ∧
    recoverFields (mpEncode "B" [("email", "a@b.com"), ("password", "secret")]) =
      [("email", "a@b.com"), ("password", "secret")] ∧
    (∃ fields, tolerantParseBody (some "application/x-www-form-urlencoded")
        (mpEncode "B" [("email", "a@b.com"), ("password", "secret")]) = .ok fields ∧
      getFieldStr fields "email" = "a@b.com" ∧ getFieldStr fields "password" = "secret") ∧
    handleFormSubmissionTolerant ⟨"", "POST", "u", none,
        some "application/x-www-form-urlencoded", none, none, none, none,
        none, none, none, mpEncode "B" [("email", "a@b.com"), ("password", "secret")]⟩ =
      ⟨200, .html (successPage (basePathOf "") "a@b.com")⟩ :=
  ⟨⟨by decide, by decide, by decide, by decide, by decide, by decide⟩,
    c1_tolerant_multipart_recovery "B" "a@b.com" "secret"
      ⟨"", "POST", "u", none, some "application/x-www-form-urlencoded", none, none,
        none, none, none, none, none,
        mpEncode "B" [("email", "a@b.com"), ("password", "secret")]⟩
      (by decide) (by decide) (by decide) (by decide) (by decide) rfl
      (Or.inl rfl) (by decide) (by decide) (by decide) (by decide)⟩

end FlowSandbox
